import Mathlib

/-!
# nbdkit exitwhen filter and rounding macros

A shallow embedding of `filters/exitwhen/exitwhen.c` and
`common/include/rounding.h`.

The filter keeps four file-scope variables (`pollsecs`, `connections`,
`exiting`, `events`) and two mutexes (`lock`, `pause_lock`).  Every hook body
runs with `lock` held up to its return (in `exitwhen_open`, from the return
of `next` on), so the sequential model below runs each hook body as one state
transformer; the mutex `pause_lock` is a field of the state because it stays
locked between hooks.  The interleaving model further down keeps `lock` as
well and lets a thread wait for one mutex while it holds the other.  System calls made by the event checks are inputs (`Probe`), host
callbacks (`next`) are modelled by their return value, and calls that leave
the filter (`nbdkit_shutdown`, `next`, the pause wrappers, each event check)
are appended to a ghost call log.  Debug and error log lines are not modelled.
The `__linux__` branches of the source are the ones embedded.
-/

namespace Rounding

/-! ## The macros of `rounding.h`

The macros are embedded at an unsigned type of `w` bits, at least as wide as
`int`, with `n` and `d` values of that type: sums, differences and the
negation wrap at `2 ^ w`. -/

/-- Modelled from the spec: the function `is_power_of_2` of `ispowerof2.h`,
which is not among the sources.  The comments of `rounding.h` say that `n`
must be a power of 2, and this is the test the `assert` makes: `v` is not
zero and has a single bit set. -/
def is_power_of_2 (v : Nat) : Bool := v != 0 && (v &&& (v - 1)) == 0

/-- The mask `-((typeof (i)) n)`: the cast reduces `n` to the type of `i`,
the negation wraps. -/
def neg_cast (w n : Nat) : Nat := (2 ^ w - n % 2 ^ w) % 2 ^ w

/-- The sum `(i) + (n) - 1`, each step wrapping. -/
def add_sub_one (w i n : Nat) : Nat := ((i + n) % 2 ^ w + (2 ^ w - 1)) % 2 ^ w

/-- The macro `ROUND_UP (i, n)`; `none` when the `assert` fails. -/
def ROUND_UP (w i n : Nat) : Option Nat :=
  if is_power_of_2 n then some (add_sub_one w i n &&& neg_cast w n) else none

/-- The macro `ROUND_DOWN (i, n)`; `none` when the `assert` fails. -/
def ROUND_DOWN (w i n : Nat) : Option Nat :=
  if is_power_of_2 n then some (i &&& neg_cast w n) else none

/-- The macro `DIV_ROUND_UP (n, d)`; `none` for a division by zero. -/
def DIV_ROUND_UP (w n d : Nat) : Option Nat :=
  if d = 0 then none else some (add_sub_one w n d / d)

end Rounding

namespace Exitwhen

/-! ## Platform constants used by the source -/

/-- Number of values of the C type `unsigned` (32 bits on every platform the
filter builds on). -/
def UINT_RANGE : Nat := 4294967296

/-- Value of `ENOENT` in `errno.h`. -/
def ENOENT : Int := 2

/-- Value of `ESRCH` in `errno.h`. -/
def ESRCH : Int := 3

/-- Value of `ENOTDIR` in `errno.h`. -/
def ENOTDIR : Int := 20

/-- Value of `POLLHUP` in `poll.h`. -/
def POLLHUP : Nat := 16

/-- Value of `POLLNVAL` in `poll.h`. -/
def POLLNVAL : Nat := 32

/-- Value of `EXIT_SUCCESS` in `stdlib.h`. -/
def EXIT_SUCCESS : Int := 0

/-- The `WIFEXITED` test of `sys/wait.h`, `(r & 0x7f) == 0`: the low seven
bits of the two's complement status are clear. -/
def WIFEXITED (r : Int) : Bool := r % 128 == 0

/-- The `WEXITSTATUS` field of `sys/wait.h`, `(r & 0xff00) >> 8`: bits 8 to
15 of the two's complement status. -/
def WEXITSTATUS (r : Int) : Int := (r / 256) % 256

/-! ## Data model -/

/-- The `type` tag of `struct event`. -/
inductive EventType
  | EVENT_FILE_CREATED
  | EVENT_FILE_DELETED
  | EVENT_PROCESS_EXITS
  | EVENT_FD_CLOSED
  | EVENT_SCRIPT
  deriving DecidableEq

/-- The union `u` of `struct event`: a filename or script, or a descriptor. -/
inductive EventData
  | filename (s : String)
  | fd (n : Int)
  deriving DecidableEq

/-- One entry of the `events` vector. -/
structure Event where
  type : EventType
  u : EventData
  deriving DecidableEq

/-- Calls that leave the filter, recorded in the order they are made. -/
inductive Call
  | check (i : Nat)
  | nbdkit_shutdown
  | pause_polling_thread
  | resume_polling_thread
  | next_config (key value : String)
  | next_get_ready
  | next_preconnect
  | next_open
  deriving DecidableEq

/-- The file-scope variables of the filter, the state of `pause_lock`, and the
ghost log of calls. -/
structure State where
  pollsecs : Nat
  connections : Nat
  exiting : Bool
  events : List Event
  pause_lock : Bool
  calls : List Call

/-- The results of the system calls one event check makes: `access`, `read`,
`poll` (with `revents`), `system`, and `errno` after a failure. -/
structure Probe where
  access_ret : Int
  read_ret : Int
  poll_ret : Int
  revents : Nat
  system_ret : Int
  errno : Int

/-- The variables as the C initialisers leave them, with the registry and the
poll interval that configuration produced. -/
def init_state (evs : List Event) (secs : Nat) : State :=
  { pollsecs := secs, connections := 0, exiting := false, events := evs,
    pause_lock := false, calls := [] }

/-- Append one call to the ghost log. -/
def record (c : Call) (s : State) : State :=
  { s with calls := s.calls ++ [c] }

/-- Number of `nbdkit_shutdown` invocations recorded so far. -/
def shutdowns (s : State) : Nat :=
  s.calls.count Call.nbdkit_shutdown

/-! ## Event checks -/

/-- The function `check_for_event_file_created`. -/
def check_for_event_file_created (p : Probe) (s : State) : State :=
  if p.access_ret = 0 then { s with exiting := true } else s

/-- The function `check_for_event_file_deleted`. -/
def check_for_event_file_deleted (p : Probe) (s : State) : State :=
  if p.access_ret = -1 then
    if p.errno = ENOTDIR ∨ p.errno = ENOENT then { s with exiting := true }
    else s
  else s

/-- The function `check_for_event_process_exits`. -/
def check_for_event_process_exits (p : Probe) (s : State) : State :=
  if p.read_ret = -1 then
    if p.errno = ESRCH then { s with exiting := true }
    else s
  else s

/-- The function `check_for_event_fd_closed`. -/
def check_for_event_fd_closed (p : Probe) (s : State) : State :=
  if p.poll_ret = 1 then
    if p.revents &&& POLLHUP ≠ 0 then { s with exiting := true }
    else if p.revents &&& POLLNVAL ≠ 0 then { s with exiting := true }
    else s
  else if p.poll_ret = -1 then s
  else s

/-- The function `check_for_event_script`. -/
def check_for_event_script (p : Probe) (s : State) : State :=
  if p.system_ret = -1 then s
  else if WIFEXITED p.system_ret && WEXITSTATUS p.system_ret == 0 then s
  else if WIFEXITED p.system_ret && WEXITSTATUS p.system_ret == 88 then
    { s with exiting := true }
  else s

/-- The `switch (event->type)` of `check_for_event`. -/
def check_one (e : Event) (p : Probe) (s : State) : State :=
  match e.type with
  | .EVENT_FILE_CREATED => check_for_event_file_created p s
  | .EVENT_FILE_DELETED => check_for_event_file_deleted p s
  | .EVENT_PROCESS_EXITS => check_for_event_process_exits p s
  | .EVENT_FD_CLOSED => check_for_event_fd_closed p s
  | .EVENT_SCRIPT => check_for_event_script p s

/-- The `for` loop of `check_for_event` from index `i` on, over the remaining
entries of the vector; `env j` holds the system call results for entry `j`. -/
def check_events (env : Nat → Probe) : List Event → Nat → State → State
  | [], _, s => s
  | e :: es, i, s =>
    check_events env es (i + 1) (check_one e (env i) (record (Call.check i) s))

/-- The function `check_for_event`: the returned flag and the state after. -/
def check_for_event (env : Nat → Probe) (s : State) : Bool × State :=
  let s1 := if !s.exiting then check_events env s.events 0 s else s
  (s1.exiting, s1)

/-- An event check is Observed when it sets `exiting`. -/
def observed (e : Event) (p : Probe) : Bool :=
  (check_one e p (init_state [] 60)).exiting

/-- Some entry of `es`, the entries of the vector from index `i` on, has an
Observed check under the system call results `env`. -/
def any_observed (env : Nat → Probe) : List Event → Nat → Bool
  | [], _ => false
  | e :: es, i => observed e (env i) || any_observed env es (i + 1)

/-! ## Polling thread and lifecycle hooks -/

/-- Modelled from the spec: the macro `ACQUIRE_LOCK_FOR_CURRENT_SCOPE` of
`cleanup.h`, which is not among the sources.  It locks the mutex and the
mutex is unlocked again when the enclosing scope ends.  The argument says
whether the mutex is held; the result is `some true`, the mutex now held by
the caller, when it was free, and `none` when the caller has to wait. -/
def ACQUIRE_LOCK_FOR_CURRENT_SCOPE (mutex : Bool) : Option Bool :=
  if mutex then none else some true

/-- One iteration of the `for (;;)` loop of `polling_thread`, up to the
`sleep`.  It needs `pause_lock`; when that mutex is locked the cycle cannot
run (`none`). -/
def polling_thread (env : Nat → Probe) (s : State) : Option State :=
  match ACQUIRE_LOCK_FOR_CURRENT_SCOPE s.pause_lock with
  | none => none
  | some m =>
    let r := check_for_event env { s with pause_lock := m }
    let s1 := if r.1 then record Call.nbdkit_shutdown r.2 else r.2
    some { s1 with pause_lock := false }

/-- The function `pause_polling_thread`: `pthread_mutex_lock (&pause_lock)`,
which never returns when the mutex is already locked, because every unlock
of it needs `lock`, which the caller holds. -/
def pause_polling_thread (s : State) : Option State :=
  if s.pause_lock then none
  else some (record Call.pause_polling_thread { s with pause_lock := true })

/-- The function `resume_polling_thread`. -/
def resume_polling_thread (s : State) : State :=
  record Call.resume_polling_thread { s with pause_lock := false }

/-- How `exitwhen_get_ready` ends: the process exits, or the hook returns. -/
inductive GetReady
  | exit (status : Int)
  | ret (r : Int)
  deriving DecidableEq

/-- The function `exitwhen_get_ready`; `next_ret` is what `next` returns. -/
def exitwhen_get_ready (env : Nat → Probe) (next_ret : Int) (s : State) :
    GetReady × State :=
  let r := check_for_event env s
  if r.1 then (GetReady.exit EXIT_SUCCESS, r.2)
  else (GetReady.ret next_ret, record Call.next_get_ready r.2)

/-- The function `exitwhen_preconnect`; `next_ret` is what `next` returns. -/
def exitwhen_preconnect (env : Nat → Probe) (next_ret : Int) (s : State) :
    Int × State :=
  let r := check_for_event env s
  if r.1 then (-1, r.2)
  else
    let s1 := record Call.next_preconnect r.2
    if next_ret = -1 then (-1, s1) else (0, s1)

/-- The handle `exitwhen_open` returns. -/
inductive Handle
  | NULL
  | NBDKIT_HANDLE_NOT_NEEDED
  deriving DecidableEq

/-- The function `exitwhen_open`; `next_ret` is what `next` returns.  The
result is `none` when the hook never returns. -/
def exitwhen_open (next_ret : Int) (s : State) : Option (Handle × State) :=
  let s0 := record Call.next_open s
  if next_ret = -1 then some (Handle.NULL, s0)
  else
    let s1 := { s0 with connections := (s0.connections + 1) % UINT_RANGE }
    if s1.connections = 1 then
      (pause_polling_thread s1).map (fun s2 => (Handle.NBDKIT_HANDLE_NOT_NEEDED, s2))
    else some (Handle.NBDKIT_HANDLE_NOT_NEEDED, s1)

/-- The function `exitwhen_close`. -/
def exitwhen_close (env : Nat → Probe) (s : State) : State :=
  let s1 := (check_for_event env s).2
  let s2 := { s1 with connections := (s1.connections + (UINT_RANGE - 1)) % UINT_RANGE }
  if s2.connections = 0 then
    if s2.exiting then record Call.nbdkit_shutdown s2
    else resume_polling_thread s2
  else s2

/-! ## Configuration -/

/-- The results of the host utilities `exitwhen_config` calls:
`nbdkit_absolute_path`, `nbdkit_parse_int`, `nbdkit_parse_uint64_t`,
`asprintf`, `open`, `strdup`, `event_list_append`, `nbdkit_parse_unsigned`
and the `next` handler.  A failed parse leaves its output variable alone. -/
structure ConfigEnv where
  absolute_path : Option String
  parse_int : Option Int
  parse_uint64_t : Option Nat
  asprintf_ok : Bool
  open_ret : Int
  strdup_ok : Bool
  append_ok : Bool
  parse_unsigned : Option Nat
  next_ret : Int

/-- Modelled from the spec: the function `event_list_append` that
`DEFINE_VECTOR_TYPE` of `vector.h` generates, which is not among the sources.
The registry is an ordered, append-only sequence: a successful append adds
the entry at the end and returns 0, a failed one (`ok` false, no memory)
returns -1 and registers nothing. -/
def event_list_append (ok : Bool) (v : List Event) (event : Event) :
    Int × List Event :=
  if ok then (0, v ++ [event]) else (-1, v)

/-- The label `append_event` of `exitwhen_config`. -/
def append_event (c : ConfigEnv) (event : Event) (s : State) : Int × State :=
  let r := event_list_append c.append_ok s.events event
  if r.1 = -1 then (-1, { s with events := r.2 })
  else (0, { s with events := r.2 })

/-- The function `exitwhen_config`.  The result is `none` when the `assert`
on `key[15]` fails. -/
def exitwhen_config (c : ConfigEnv) (key value : String) (s : State) :
    Option (Int × State) :=
  if key = "exit-when-file-created" ∨ key = "exit-when-file-deleted" then
    match key.toList[15]? with
    | none => none
    | some ch =>
      if ch = 'c' ∨ ch = 'd' then
        match c.absolute_path with
        | none => some (-1, s)
        | some path =>
          some (append_event c
            ⟨if ch = 'c' then EventType.EVENT_FILE_CREATED
              else EventType.EVENT_FILE_DELETED, EventData.filename path⟩ s)
      else none
  else if key = "exit-when-pipe-closed" ∨ key = "exit-when-fd-closed" then
    match c.parse_int with
    | none => some (-1, s)
    | some fd => some (append_event c ⟨EventType.EVENT_FD_CLOSED, EventData.fd fd⟩ s)
  else if key = "exit-when-process-exits" ∨ key = "exit-when-pid-exits" then
    match c.parse_uint64_t with
    | none => some (-1, s)
    | some _ =>
      if !c.asprintf_ok then some (-1, s)
      else if c.open_ret = -1 then some (-1, s)
      else some (append_event c ⟨EventType.EVENT_PROCESS_EXITS, EventData.fd c.open_ret⟩ s)
  else if key = "exit-when-script" then
    if !c.strdup_ok then some (-1, s)
    else some (append_event c ⟨EventType.EVENT_SCRIPT, EventData.filename value⟩ s)
  else if key = "exit-when-poll" then
    match c.parse_unsigned with
    | none => some (-1, s)
    | some n => some (0, { s with pollsecs := n })
  else some (c.next_ret, record (Call.next_config key value) s)

/-! ## Executions of the sequential model -/

/-- One operation on the filter, with the inputs it consumes. -/
inductive Op
  | polling_thread (env : Nat → Probe)
  | exitwhen_get_ready (env : Nat → Probe) (next_ret : Int)
  | exitwhen_preconnect (env : Nat → Probe) (next_ret : Int)
  | exitwhen_open (next_ret : Int)
  | exitwhen_close (env : Nat → Probe)
  | exitwhen_config (c : ConfigEnv) (key value : String)
  | check_for_event (env : Nat → Probe)

/-- The state after one operation; `none` when the operation does not return
to a running process (the poller or `exitwhen_open` waits for `pause_lock`
for ever, `exitwhen_get_ready` exits the process, an `assert` fails). -/
def step : Op → State → Option State
  | Op.polling_thread env, s => polling_thread env s
  | Op.exitwhen_get_ready env nr, s =>
    match exitwhen_get_ready env nr s with
    | (GetReady.exit _, _) => none
    | (GetReady.ret _, s1) => some s1
  | Op.exitwhen_preconnect env nr, s => some (exitwhen_preconnect env nr s).2
  | Op.exitwhen_open nr, s => (exitwhen_open nr s).map Prod.snd
  | Op.exitwhen_close env, s => some (exitwhen_close env s)
  | Op.exitwhen_config c key value, s => (exitwhen_config c key value s).map Prod.snd
  | Op.check_for_event env, s => some (check_for_event env s).2

/-- Run a sequence of operations, first to last. -/
def run : List Op → State → Option State
  | [], s => some s
  | op :: ops, s => (step op s).bind (run ops)

/-- Number of operations of a sequence that contain a call site of
`nbdkit_shutdown`: poller cycles and `exitwhen_close` calls. -/
def shutdown_sites : List Op → Nat
  | [] => 0
  | Op.polling_thread _ :: ops => shutdown_sites ops + 1
  | Op.exitwhen_close _ :: ops => shutdown_sites ops + 1
  | _ :: ops => shutdown_sites ops

/-- Number of connections open after a sequence of operations that starts
with `n` connections open: a successful `exitwhen_open` opens one, an
`exitwhen_close` closes one.  The result is `none` when some
`exitwhen_close` has no open connection to close. -/
def open_handles : List Op → Nat → Option Nat
  | [], n => some n
  | Op.exitwhen_open nr :: ops, n => open_handles ops (if nr = -1 then n else n + 1)
  | Op.exitwhen_close _ :: ops, n => if n = 0 then none else open_handles ops (n - 1)
  | _ :: ops, n => open_handles ops n

/-- The sequence holds no `exitwhen_config` call: it consists of poller
cycles, lifecycle hooks and calls of `check_for_event`. -/
def runtime_only : List Op → Bool
  | [] => true
  | Op.exitwhen_config _ _ _ :: _ => false
  | _ :: ops => runtime_only ops

/-- The keys `exitwhen_config` recognises. -/
def recognised_keys : List String :=
  ["exit-when-file-created", "exit-when-file-deleted", "exit-when-pipe-closed",
   "exit-when-fd-closed", "exit-when-process-exits", "exit-when-pid-exits",
   "exit-when-script", "exit-when-poll"]

/-- The kind of event a configuration key names, following the list of keys
in the specification; `none` for `exit-when-poll` and for every key that is
passed on. -/
def key_kind (key : String) : Option EventType :=
  if key = "exit-when-file-created" then some EventType.EVENT_FILE_CREATED
  else if key = "exit-when-file-deleted" then some EventType.EVENT_FILE_DELETED
  else if key = "exit-when-pipe-closed" then some EventType.EVENT_FD_CLOSED
  else if key = "exit-when-fd-closed" then some EventType.EVENT_FD_CLOSED
  else if key = "exit-when-process-exits" then some EventType.EVENT_PROCESS_EXITS
  else if key = "exit-when-pid-exits" then some EventType.EVENT_PROCESS_EXITS
  else if key = "exit-when-script" then some EventType.EVENT_SCRIPT
  else none

/-- The failure causes of configuration the specification lists, for the
key at hand: a bad integer, a failed path resolution, a failed `asprintf` or
`open` of the stat file, a failed string copy, a failed append. -/
def config_failure (c : ConfigEnv) (key : String) : Bool :=
  if key = "exit-when-file-created" ∨ key = "exit-when-file-deleted" then
    c.absolute_path.isNone || !c.append_ok
  else if key = "exit-when-pipe-closed" ∨ key = "exit-when-fd-closed" then
    c.parse_int.isNone || !c.append_ok
  else if key = "exit-when-process-exits" ∨ key = "exit-when-pid-exits" then
    c.parse_uint64_t.isNone || !c.asprintf_ok || c.open_ret == -1 || !c.append_ok
  else if key = "exit-when-script" then !c.strdup_ok || !c.append_ok
  else if key = "exit-when-poll" then c.parse_unsigned.isNone
  else false

/-- The relation between the variables and the number `c` of connections
that are open: `connections` is `c` reduced to the range of `unsigned`, at
most `UINT_RANGE` connections are open, `pause_lock` is locked while a
connection is open, and while `exiting` is false it is locked only then. -/
def conn_inv (c : Nat) (s : State) : Prop :=
  s.connections = c % UINT_RANGE ∧ c ≤ UINT_RANGE ∧
  (1 ≤ c → s.pause_lock = true) ∧
  (s.exiting = false → s.pause_lock = true → 1 ≤ c)

/-! ## Interleaving model of the threads

The sequential model runs a poller cycle only when `pause_lock` is free.  The
model below keeps the two lock acquisitions of `polling_thread` apart, and
the wait inside `pause_polling_thread`, so that a thread can hold `lock`
while it waits for `pause_lock`.  A hook body that cannot wait once it holds
`lock` is one action.  A call of `exitwhen_open` whose `next` fails returns
before it touches either mutex and is not an action. -/

/-- Where the polling thread is: between two cycles (asleep, or about to lock
`lock`), or holding `lock` and about to lock `pause_lock`. -/
inductive PollerPC
  | idle
  | has_lock
  deriving DecidableEq

/-- Where a thread of the host that runs hooks is: outside the hook bodies,
or in `exitwhen_open` holding `lock` and waiting in `pause_polling_thread`. -/
inductive HookPC
  | idle
  | open_pausing
  deriving DecidableEq

/-- The variables of the filter, whether `lock` is held, and the position of
every thread. -/
structure Sys where
  vars : State
  lock : Bool
  poller : PollerPC
  hooks : List HookPC

/-- One action of one thread; `t` is the index of a hook thread. -/
inductive Act
  | poller_lock
  | poller_cycle (env : Nat → Probe)
  | get_ready (t : Nat) (env : Nat → Probe) (next_ret : Int)
  | preconnect (t : Nat) (env : Nat → Probe) (next_ret : Int)
  | open_call (t : Nat)
  | open_pause (t : Nat)
  | close (t : Nat) (env : Nat → Probe)

/-- The system after one action, or `none` when the action is not enabled:
the thread is elsewhere, the mutex it has to lock is held, or the process
exits. -/
def Sys.step : Act → Sys → Option Sys
  | Act.poller_lock, y =>
    if y.poller = PollerPC.idle then
      (ACQUIRE_LOCK_FOR_CURRENT_SCOPE y.lock).map
        (fun m => { y with lock := m, poller := PollerPC.has_lock })
    else none
  | Act.poller_cycle env, y =>
    if y.poller = PollerPC.has_lock then
      (polling_thread env y.vars).map
        (fun v => { y with vars := v, lock := false, poller := PollerPC.idle })
    else none
  | Act.get_ready t env nr, y =>
    if y.hooks[t]? = some HookPC.idle ∧
        ACQUIRE_LOCK_FOR_CURRENT_SCOPE y.lock = some true then
      match exitwhen_get_ready env nr y.vars with
      | (GetReady.exit _, _) => none
      | (GetReady.ret _, v) => some { y with vars := v }
    else none
  | Act.preconnect t env nr, y =>
    if y.hooks[t]? = some HookPC.idle ∧
        ACQUIRE_LOCK_FOR_CURRENT_SCOPE y.lock = some true then
      some { y with vars := (exitwhen_preconnect env nr y.vars).2 }
    else none
  | Act.open_call t, y =>
    if y.hooks[t]? = some HookPC.idle ∧
        ACQUIRE_LOCK_FOR_CURRENT_SCOPE y.lock = some true then
      let v := { y.vars with connections := (y.vars.connections + 1) % UINT_RANGE }
      if v.connections = 1 then
        some { y with vars := v, lock := true, hooks := y.hooks.set t HookPC.open_pausing }
      else some { y with vars := v }
    else none
  | Act.open_pause t, y =>
    if y.hooks[t]? = some HookPC.open_pausing then
      (pause_polling_thread y.vars).map
        (fun v => { y with vars := v, lock := false, hooks := y.hooks.set t HookPC.idle })
    else none
  | Act.close t env, y =>
    if y.hooks[t]? = some HookPC.idle ∧
        ACQUIRE_LOCK_FOR_CURRENT_SCOPE y.lock = some true then
      some { y with vars := exitwhen_close env y.vars }
    else none

/-- Run a schedule of actions, first to last. -/
def Sys.run : List Act → Sys → Option Sys
  | [], y => some y
  | a :: as, y => (Sys.step a y).bind (Sys.run as)

/-- The system after configuration: both mutexes free, the polling thread
started, `n` hook threads outside the hook bodies. -/
def Sys.init (evs : List Event) (secs : Nat) (n : Nat) : Sys :=
  { vars := init_state evs secs, lock := false, poller := PollerPC.idle,
    hooks := List.replicate n HookPC.idle }

/-! ## Closed forms of the event checks -/

theorem check_one_eq (e : Event) (p : Probe) (s : State) :
    check_one e p s = { s with exiting := s.exiting || observed e p } := by
  obtain ⟨ty, u⟩ := e
  obtain ⟨ps, cn, ex, evs, pl, cl⟩ := s
  cases ty <;>
    simp only [check_one, observed, init_state, check_for_event_file_created,
      check_for_event_file_deleted, check_for_event_process_exits,
      check_for_event_fd_closed, check_for_event_script] <;>
    (repeat' split) <;> simp

theorem check_events_eq (env : Nat → Probe) (es : List Event) (i : Nat) (s : State) :
    check_events env es i s =
      { s with exiting := s.exiting || any_observed env es i,
               calls := s.calls ++ (List.range' i es.length).map Call.check } := by
  induction es generalizing i s with
  | nil => simp [check_events, any_observed]
  | cons e es ih =>
    simp [check_events, any_observed, ih, check_one_eq, record, List.range'_succ,
      Bool.or_assoc]

theorem check_for_event_eq (env : Nat → Probe) (s : State) :
    check_for_event env s =
      if s.exiting then (true, s)
      else (any_observed env s.events 0,
        { s with exiting := any_observed env s.events 0,
                 calls := s.calls ++ (List.range s.events.length).map Call.check }) := by
  cases h : s.exiting <;>
    simp [check_for_event, h, check_events_eq, List.range_eq_range']

theorem any_observed_iff (env : Nat → Probe) (es : List Event) (i : Nat) :
    any_observed env es i = true ↔
      ∃ j e, es[j]? = some e ∧ observed e (env (i + j)) = true := by
  induction es generalizing i with
  | nil => simp [any_observed]
  | cons e es ih =>
    simp only [any_observed, Bool.or_eq_true, ih]
    constructor
    · rintro (h | ⟨j, e1, h1, h2⟩)
      · exact ⟨0, e, by simp, by simpa using h⟩
      · exact ⟨j + 1, e1, by simpa using h1, by rw [← h2]; congr 2; omega⟩
    · rintro ⟨j, e1, h1, h2⟩
      cases j with
      | zero =>
        left
        simp at h1
        subst h1
        simpa using h2
      | succ j =>
        right
        exact ⟨j, e1, by simpa using h1, by rw [← h2]; congr 2; omega⟩

/-! ## Frame lemmas for `check_for_event` -/

theorem check_for_event_fst (env : Nat → Probe) (s : State) :
    (check_for_event env s).1 = (s.exiting || any_observed env s.events 0) := by
  rw [check_for_event_eq]; cases s.exiting <;> simp

theorem check_for_event_exiting (env : Nat → Probe) (s : State) :
    (check_for_event env s).2.exiting = (s.exiting || any_observed env s.events 0) := by
  rw [check_for_event_eq]; cases h : s.exiting <;> simp [h]

theorem check_for_event_connections (env : Nat → Probe) (s : State) :
    (check_for_event env s).2.connections = s.connections := by
  rw [check_for_event_eq]; cases s.exiting <;> simp

theorem check_for_event_pollsecs (env : Nat → Probe) (s : State) :
    (check_for_event env s).2.pollsecs = s.pollsecs := by
  rw [check_for_event_eq]; cases s.exiting <;> simp

theorem check_for_event_events (env : Nat → Probe) (s : State) :
    (check_for_event env s).2.events = s.events := by
  rw [check_for_event_eq]; cases s.exiting <;> simp

theorem check_for_event_pause_lock (env : Nat → Probe) (s : State) :
    (check_for_event env s).2.pause_lock = s.pause_lock := by
  rw [check_for_event_eq]; cases s.exiting <;> simp

theorem check_for_event_calls (env : Nat → Probe) (s : State) :
    (check_for_event env s).2.calls =
      s.calls ++ (if s.exiting then []
        else (List.range s.events.length).map Call.check) := by
  rw [check_for_event_eq]; cases s.exiting <;> simp

theorem count_shutdown_checks (l : List Nat) :
    (l.map Call.check).count Call.nbdkit_shutdown = 0 := by
  induction l with
  | nil => rfl
  | cons a l ih => simp [List.count_cons, ih]

theorem check_for_event_shutdowns (env : Nat → Probe) (s : State) :
    shutdowns (check_for_event env s).2 = shutdowns s := by
  unfold shutdowns
  rw [check_for_event_calls]
  split <;> simp [count_shutdown_checks]

theorem shutdowns_record_shutdown (s : State) :
    shutdowns (record Call.nbdkit_shutdown s) = shutdowns s + 1 := by
  simp [shutdowns, record]

/-! ## Effect of the hooks on each variable -/

theorem exitwhen_close_exiting (env : Nat → Probe) (s : State) :
    (exitwhen_close env s).exiting = (check_for_event env s).1 := by
  simp only [exitwhen_close, resume_polling_thread, record]
  split
  · split <;> rfl
  · rfl

theorem exitwhen_close_connections (env : Nat → Probe) (s : State) :
    (exitwhen_close env s).connections =
      (s.connections + (UINT_RANGE - 1)) % UINT_RANGE := by
  simp only [exitwhen_close, resume_polling_thread, record]
  split
  · split <;> simp [check_for_event_connections]
  · simp [check_for_event_connections]

theorem exitwhen_close_events (env : Nat → Probe) (s : State) :
    (exitwhen_close env s).events = s.events := by
  simp only [exitwhen_close, resume_polling_thread, record]
  split
  · split <;> simp [check_for_event_events]
  · simp [check_for_event_events]

theorem exitwhen_close_pollsecs (env : Nat → Probe) (s : State) :
    (exitwhen_close env s).pollsecs = s.pollsecs := by
  simp only [exitwhen_close, resume_polling_thread, record]
  split
  · split <;> simp [check_for_event_pollsecs]
  · simp [check_for_event_pollsecs]

theorem exitwhen_close_pause_lock (env : Nat → Probe) (s : State) :
    (exitwhen_close env s).pause_lock =
      if (exitwhen_close env s).connections = 0 ∧ (check_for_event env s).1 = false
      then false else s.pause_lock := by
  rw [exitwhen_close_connections]
  simp only [exitwhen_close, resume_polling_thread, record]
  have hc := check_for_event_connections env s
  have hp := check_for_event_pause_lock env s
  by_cases h0 : (s.connections + (UINT_RANGE - 1)) % UINT_RANGE = 0
  · cases h1 : (check_for_event env s).2.exiting <;>
      simp_all [check_for_event]
  · simp_all [check_for_event]

theorem exitwhen_close_shutdowns (env : Nat → Probe) (s : State) :
    shutdowns (exitwhen_close env s) =
      shutdowns s +
        if (exitwhen_close env s).connections = 0 ∧ (check_for_event env s).1 = true
        then 1 else 0 := by
  rw [exitwhen_close_connections]
  have hc := check_for_event_connections env s
  have hs := check_for_event_shutdowns env s
  have h1 : (check_for_event env s).1 = (check_for_event env s).2.exiting := rfl
  simp only [exitwhen_close, resume_polling_thread]
  by_cases h0 : (s.connections + (UINT_RANGE - 1)) % UINT_RANGE = 0
  · cases h2 : (check_for_event env s).2.exiting
    · simp [hc, h0, h1, h2, shutdowns, record] at hs ⊢
      exact hs
    · simp [hc, h0, h1, h2, shutdowns, record] at hs ⊢
      exact hs
  · simp [hc, h0, h1, shutdowns] at hs ⊢
    exact hs

theorem polling_thread_some (env : Nat → Probe) (s s1 : State)
    (h : polling_thread env s = some s1) :
    s.pause_lock = false ∧ s1.pause_lock = false ∧
    s1.exiting = (s.exiting || any_observed env s.events 0) ∧
    s1.connections = s.connections ∧ s1.events = s.events ∧
    s1.pollsecs = s.pollsecs ∧
    shutdowns s1 = shutdowns s +
      (if (s.exiting || any_observed env s.events 0) = true then 1 else 0) := by
  unfold polling_thread ACQUIRE_LOCK_FOR_CURRENT_SCOPE at h
  cases hp : s.pause_lock
  · simp only [hp, Bool.false_eq_true, if_false, Option.some.injEq] at h
    subst h
    have hs := check_for_event_shutdowns env { s with pause_lock := true }
    have hf := check_for_event_fst env { s with pause_lock := true }
    have he := check_for_event_exiting env { s with pause_lock := true }
    have hc := check_for_event_connections env { s with pause_lock := true }
    have hv := check_for_event_events env { s with pause_lock := true }
    have hq := check_for_event_pollsecs env { s with pause_lock := true }
    simp only at hf he hc hv hq
    cases hr : (check_for_event env { s with pause_lock := true }).1
    · rw [hr] at hf
      simp only [hr, Bool.false_eq_true, if_false]
      refine ⟨trivial, trivial, he, hc, hv, hq, ?_⟩
      rw [← hf]
      simpa [shutdowns] using hs
    · rw [hr] at hf
      simp only [hr, if_true]
      refine ⟨trivial, trivial, he, hc, hv, hq, ?_⟩
      rw [← hf]
      simpa [shutdowns, record] using hs
  · simp [hp] at h

theorem polling_thread_isSome (env : Nat → Probe) (s : State)
    (h : s.pause_lock = false) : ∃ s1, polling_thread env s = some s1 := by
  simp [polling_thread, ACQUIRE_LOCK_FOR_CURRENT_SCOPE, h]

theorem polling_thread_blocked (env : Nat → Probe) (s : State)
    (h : s.pause_lock = true) : polling_thread env s = none := by
  simp [polling_thread, ACQUIRE_LOCK_FOR_CURRENT_SCOPE, h]

theorem exitwhen_open_some (nr : Int) (s : State) (r : Handle × State)
    (h : exitwhen_open nr s = some r) :
    r.2.exiting = s.exiting ∧ r.2.events = s.events ∧ r.2.pollsecs = s.pollsecs ∧
    shutdowns r.2 = shutdowns s ∧
    (nr = -1 → r.1 = Handle.NULL ∧ r.2.connections = s.connections ∧
      r.2.pause_lock = s.pause_lock) ∧
    (nr ≠ -1 → r.1 = Handle.NBDKIT_HANDLE_NOT_NEEDED ∧
      r.2.connections = (s.connections + 1) % UINT_RANGE ∧
      (r.2.connections = 1 → s.pause_lock = false ∧ r.2.pause_lock = true) ∧
      (r.2.connections ≠ 1 → r.2.pause_lock = s.pause_lock)) := by
  unfold exitwhen_open at h
  by_cases hn : nr = -1
  · simp only [hn, if_true, Option.some.injEq] at h
    subst h
    simp [record, shutdowns, hn]
  · simp only [hn, if_false] at h
    by_cases h1 : (s.connections + 1) % UINT_RANGE = 1
    · simp only [record, h1, if_true, pause_polling_thread] at h
      cases hp : s.pause_lock
      · simp only [hp, Bool.false_eq_true, if_false, Option.map_some',
          Option.some.injEq] at h
        subst h
        simp [shutdowns, hn, h1]
      · simp [hp] at h
    · simp only [record, h1, if_false, Option.some.injEq] at h
      subst h
      simp [shutdowns, hn, h1]

theorem exitwhen_open_isSome (nr : Int) (s : State)
    (h : s.pause_lock = false ∨ (s.connections + 1) % UINT_RANGE ≠ 1) :
    ∃ r, exitwhen_open nr s = some r := by
  unfold exitwhen_open
  by_cases hn : nr = -1
  · simp [hn]
  · by_cases h1 : (s.connections + 1) % UINT_RANGE = 1
    · have hp : s.pause_lock = false := by
        rcases h with h | h
        · exact h
        · exact absurd h1 h
      simp [hn, h1, record, pause_polling_thread, hp]
    · simp [hn, h1, record]

theorem exitwhen_config_some (c : ConfigEnv) (key value : String) (s : State)
    (r : Int × State) (h : exitwhen_config c key value s = some r) :
    r.2.exiting = s.exiting ∧ r.2.connections = s.connections ∧
    r.2.pause_lock = s.pause_lock ∧ shutdowns r.2 = shutdowns s := by
  unfold exitwhen_config at h
  simp only [append_event, event_list_append] at h
  repeat' split at h
  all_goals first
    | (simp only [Option.some.injEq] at h
       subst h
       simp [shutdowns, record])
    | (simp at h)

theorem exitwhen_preconnect_exiting (env : Nat → Probe) (nr : Int) (s : State) :
    (exitwhen_preconnect env nr s).2.exiting =
      (s.exiting || any_observed env s.events 0) := by
  rw [← check_for_event_exiting env s]
  simp only [exitwhen_preconnect, record]
  split
  · rfl
  · split <;> rfl

theorem exitwhen_get_ready_exiting (env : Nat → Probe) (nr : Int) (s : State) :
    (exitwhen_get_ready env nr s).2.exiting =
      (s.exiting || any_observed env s.events 0) := by
  rw [← check_for_event_exiting env s]
  simp only [exitwhen_get_ready, record]
  split <;> rfl

theorem step_exiting (op : Op) (s s1 : State) (h : step op s = some s1)
    (he : s.exiting = true) : s1.exiting = true := by
  cases op with
  | polling_thread env =>
    have := (polling_thread_some env s s1 h).2.2.1
    simp [this, he]
  | exitwhen_get_ready env nr =>
    have h1 := exitwhen_get_ready_exiting env nr s
    simp only [step] at h
    split at h
    · exact absurd h (by simp)
    · rename_i heq
      simp only [Option.some.injEq] at h
      subst h
      rw [heq] at h1
      simpa [he] using h1
  | exitwhen_preconnect env nr =>
    simp only [step, Option.some.injEq] at h
    subst h
    simp [exitwhen_preconnect_exiting, he]
  | exitwhen_open nr =>
    simp only [step, Option.map_eq_some'] at h
    obtain ⟨r, hr, rfl⟩ := h
    rw [(exitwhen_open_some nr s r hr).1, he]
  | exitwhen_close env =>
    simp only [step, Option.some.injEq] at h
    subst h
    simp [exitwhen_close_exiting, check_for_event_fst, he]
  | exitwhen_config c key value =>
    simp only [step, Option.map_eq_some'] at h
    obtain ⟨r, hr, rfl⟩ := h
    rw [(exitwhen_config_some c key value s r hr).1, he]
  | check_for_event env =>
    simp only [step, Option.some.injEq] at h
    subst h
    simp [check_for_event_exiting, he]

theorem run_exiting (ops : List Op) (s s1 : State) (h : run ops s = some s1)
    (he : s.exiting = true) : s1.exiting = true := by
  induction ops generalizing s with
  | nil =>
    simp only [run, Option.some.injEq] at h
    subst h
    exact he
  | cons op ops ih =>
    simp only [run, Option.bind_eq_some] at h
    obtain ⟨s2, h2, h3⟩ := h
    exact ih s2 h3 (step_exiting op s s2 h2 he)

/-! ## The latch and the event scan (claims C2, C3, C4) -/

/-- C2: `exiting` is a monotonic latch.  From a state where `exiting` is true,
`check_for_event`, a poller cycle, `exitwhen_get_ready`,
`exitwhen_preconnect`, `exitwhen_open`, `exitwhen_close` and
`exitwhen_config` all leave it true, whatever the probe outcomes.  And once a
call of `check_for_event` has returned true, after any further sequence of
those operations every call of `check_for_event` returns true again. -/
theorem exiting_monotonic_latch :
    (∀ s : State, s.exiting = true →
      (∀ env, (check_for_event env s).2.exiting = true) ∧
      (∀ env s1, polling_thread env s = some s1 → s1.exiting = true) ∧
      (∀ env nr, (exitwhen_get_ready env nr s).2.exiting = true) ∧
      (∀ env nr, (exitwhen_preconnect env nr s).2.exiting = true) ∧
      (∀ nr r, exitwhen_open nr s = some r → r.2.exiting = true) ∧
      (∀ env, (exitwhen_close env s).exiting = true) ∧
      (∀ c key value r, exitwhen_config c key value s = some r →
        r.2.exiting = true)) ∧
    (∀ (s : State) (env : Nat → Probe), (check_for_event env s).1 = true →
      ∀ ops s1, run ops (check_for_event env s).2 = some s1 →
        ∀ env1, (check_for_event env1 s1).1 = true ∧
          (check_for_event env1 s1).2.exiting = true) := by
  constructor
  · intro s he
    refine ⟨?_, ?_, ?_, ?_, ?_, ?_, ?_⟩
    · intro env
      simp [check_for_event_exiting, he]
    · intro env s1 h
      exact step_exiting (Op.polling_thread env) s s1 h he
    · intro env nr
      simp [exitwhen_get_ready_exiting, he]
    · intro env nr
      simp [exitwhen_preconnect_exiting, he]
    · intro nr r h
      rw [(exitwhen_open_some nr s r h).1, he]
    · intro env
      simp [exitwhen_close_exiting, check_for_event_fst, he]
    · intro c key value r h
      rw [(exitwhen_config_some c key value s r h).1, he]
  · intro s env h ops s1 hrun env1
    have h1 : (check_for_event env s).2.exiting = true := h
    have h2 := run_exiting ops _ s1 hrun h1
    simp [check_for_event_fst, check_for_event_exiting, h2]

/-- C3, as stated, fails: with a FileCreated event at index 0 whose check is
Observed and a ScriptExit event at index 1, `check_for_event` entered with
`exiting` false still invokes the check of index 1 after index 0 was
Observed. -/
theorem check_for_event_no_short_circuit :
    (init_state [⟨EventType.EVENT_FILE_CREATED, EventData.filename "/p"⟩,
        ⟨EventType.EVENT_SCRIPT, EventData.filename "cmd"⟩] 60).exiting = false ∧
    observed ⟨EventType.EVENT_FILE_CREATED, EventData.filename "/p"⟩
      ⟨0, 0, 0, 0, 0, 0⟩ = true ∧
    (check_for_event (fun _ => ⟨0, 0, 0, 0, 0, 0⟩)
      (init_state [⟨EventType.EVENT_FILE_CREATED, EventData.filename "/p"⟩,
        ⟨EventType.EVENT_SCRIPT, EventData.filename "cmd"⟩] 60)).2.calls
      = [Call.check 0, Call.check 1] ∧
    Call.check 1 ∈ (check_for_event (fun _ => ⟨0, 0, 0, 0, 0, 0⟩)
      (init_state [⟨EventType.EVENT_FILE_CREATED, EventData.filename "/p"⟩,
        ⟨EventType.EVENT_SCRIPT, EventData.filename "cmd"⟩] 60)).2.calls := by
  decide

/-- C3, amended: when `check_for_event` is entered with `exiting` false and
the check of the event at index `k` is Observed, it invokes the check of
every registered event, indices `0` to `events.size - 1` in registration
order, those after `k` included, and returns true. -/
theorem check_for_event_scans_all (env : Nat → Probe) (s : State) (k : Nat)
    (e : Event) (h0 : s.exiting = false) (hk : s.events[k]? = some e)
    (hobs : observed e (env k) = true) :
    (check_for_event env s).1 = true ∧
    (check_for_event env s).2.calls =
      s.calls ++ (List.range s.events.length).map Call.check := by
  constructor
  · rw [check_for_event_fst, h0, Bool.false_or, any_observed_iff]
    exact ⟨k, e, hk, by simpa using hobs⟩
  · rw [check_for_event_calls, h0]
    simp

/-- Witness for `check_for_event_scans_all`: a registry of two events whose
first check is Observed. -/
theorem check_for_event_scans_all_witness :
    (check_for_event (fun _ => ⟨0, 0, 0, 0, 0, 0⟩)
      (init_state [⟨EventType.EVENT_FILE_CREATED, EventData.filename "/p"⟩,
        ⟨EventType.EVENT_SCRIPT, EventData.filename "cmd"⟩] 60)).1 = true ∧
    (check_for_event (fun _ => ⟨0, 0, 0, 0, 0, 0⟩)
      (init_state [⟨EventType.EVENT_FILE_CREATED, EventData.filename "/p"⟩,
        ⟨EventType.EVENT_SCRIPT, EventData.filename "cmd"⟩] 60)).2.calls =
      (init_state [⟨EventType.EVENT_FILE_CREATED, EventData.filename "/p"⟩,
        ⟨EventType.EVENT_SCRIPT, EventData.filename "cmd"⟩] 60).calls ++
      (List.range (init_state [⟨EventType.EVENT_FILE_CREATED, EventData.filename "/p"⟩,
        ⟨EventType.EVENT_SCRIPT, EventData.filename "cmd"⟩] 60).events.length).map
        Call.check :=
  check_for_event_scans_all (fun _ => ⟨0, 0, 0, 0, 0, 0⟩)
    (init_state [⟨EventType.EVENT_FILE_CREATED, EventData.filename "/p"⟩,
      ⟨EventType.EVENT_SCRIPT, EventData.filename "cmd"⟩] 60) 0
    ⟨EventType.EVENT_FILE_CREATED, EventData.filename "/p"⟩ rfl rfl (by decide)

/-- C4: `check_for_event` returns true exactly when `exiting` was true on
entry or the check of some registered event is Observed; `exiting` after the
call equals the returned value; `connections`, `pollsecs` and the registry
are never changed, and when it returns false `exiting` is unchanged too. -/
theorem check_for_event_returns (env : Nat → Probe) (s : State) :
    ((check_for_event env s).1 = true ↔
      (s.exiting = true ∨
        ∃ i e, s.events[i]? = some e ∧ observed e (env i) = true)) ∧
    (check_for_event env s).2.exiting = (check_for_event env s).1 ∧
    (check_for_event env s).2.connections = s.connections ∧
    (check_for_event env s).2.pollsecs = s.pollsecs ∧
    (check_for_event env s).2.events = s.events ∧
    ((check_for_event env s).1 = false →
      (check_for_event env s).2.exiting = s.exiting) := by
  refine ⟨?_, rfl, check_for_event_connections env s, check_for_event_pollsecs env s,
    check_for_event_events env s, ?_⟩
  · rw [check_for_event_fst, Bool.or_eq_true, any_observed_iff]
    simp
  · rw [check_for_event_fst, check_for_event_exiting]
    intro h
    rw [h]
    cases hs : s.exiting
    · rfl
    · simp [hs] at h

/-! ## Invocations of `nbdkit_shutdown` (claim C1) -/

theorem shutdowns_record_other (c : Call) (s : State) (h : c ≠ Call.nbdkit_shutdown) :
    shutdowns (record c s) = shutdowns s := by
  simp only [shutdowns, record, List.count_append]
  rw [List.count_singleton]
  simp [h]

theorem exitwhen_preconnect_shutdowns (env : Nat → Probe) (nr : Int) (s : State) :
    shutdowns (exitwhen_preconnect env nr s).2 = shutdowns s := by
  have h := check_for_event_shutdowns env s
  simp only [exitwhen_preconnect]
  split
  · exact h
  · split <;> simp [shutdowns_record_other, h]

theorem exitwhen_get_ready_shutdowns (env : Nat → Probe) (nr : Int) (s : State) :
    shutdowns (exitwhen_get_ready env nr s).2 = shutdowns s := by
  have h := check_for_event_shutdowns env s
  simp only [exitwhen_get_ready]
  split
  · exact h
  · simp [shutdowns_record_other, h]

theorem step_shutdowns (op : Op) (s s1 : State) (h : step op s = some s1) :
    shutdowns s ≤ shutdowns s1 ∧
    shutdowns s1 ≤ shutdowns s + shutdown_sites [op] ∧
    (shutdowns s < shutdowns s1 → s1.exiting = true) := by
  cases op with
  | polling_thread env =>
    obtain ⟨-, -, he, -, -, -, hs⟩ := polling_thread_some env s s1 h
    rw [hs, he]
    simp only [shutdown_sites]
    split <;> simp_all
  | exitwhen_get_ready env nr =>
    have h1 := exitwhen_get_ready_shutdowns env nr s
    simp only [step] at h
    split at h
    · exact absurd h (by simp)
    · rename_i heq
      simp only [Option.some.injEq] at h
      subst h
      rw [heq] at h1
      simp only at h1
      simp [h1, shutdown_sites]
  | exitwhen_preconnect env nr =>
    simp only [step, Option.some.injEq] at h
    subst h
    simp [exitwhen_preconnect_shutdowns, shutdown_sites]
  | exitwhen_open nr =>
    simp only [step, Option.map_eq_some'] at h
    obtain ⟨r, hr, rfl⟩ := h
    simp [(exitwhen_open_some nr s r hr).2.2.2.1, shutdown_sites]
  | exitwhen_close env =>
    simp only [step, Option.some.injEq] at h
    subst h
    rw [exitwhen_close_shutdowns, exitwhen_close_exiting]
    simp only [shutdown_sites]
    split <;> simp_all
  | exitwhen_config c key value =>
    simp only [step, Option.map_eq_some'] at h
    obtain ⟨r, hr, rfl⟩ := h
    simp [(exitwhen_config_some c key value s r hr).2.2.2, shutdown_sites]
  | check_for_event env =>
    simp only [step, Option.some.injEq] at h
    subst h
    simp [check_for_event_shutdowns, shutdown_sites]

theorem shutdown_sites_cons (op : Op) (ops : List Op) :
    shutdown_sites (op :: ops) = shutdown_sites [op] + shutdown_sites ops := by
  cases op <;> simp [shutdown_sites] <;> omega

theorem run_shutdowns (ops : List Op) (s s1 : State) (h : run ops s = some s1) :
    shutdowns s ≤ shutdowns s1 ∧
    shutdowns s1 ≤ shutdowns s + shutdown_sites ops ∧
    (shutdowns s < shutdowns s1 → s1.exiting = true) := by
  induction ops generalizing s with
  | nil =>
    simp only [run, Option.some.injEq] at h
    subst h
    simp [shutdown_sites]
  | cons op ops ih =>
    simp only [run, Option.bind_eq_some] at h
    obtain ⟨s2, h2, h3⟩ := h
    obtain ⟨a1, a2, a3⟩ := step_shutdowns op s s2 h2
    obtain ⟨b1, b2, b3⟩ := ih s2 h3
    rw [shutdown_sites_cons]
    refine ⟨by omega, by omega, ?_⟩
    intro hlt
    by_cases hc : shutdowns s2 < shutdowns s1
    · exact b3 hc
    · have : shutdowns s < shutdowns s2 := by omega
      exact run_exiting ops s2 s1 h3 (a3 this)

theorem count_checks (c : Call) (hc : ∀ i, Call.check i ≠ c) (l : List Nat) :
    (l.map Call.check).count c = 0 := by
  induction l with
  | nil => rfl
  | cons a l ih =>
    rw [List.map_cons, List.count_cons, ih]
    simp [hc a]

theorem check_for_event_count (c : Call) (hc : ∀ i, Call.check i ≠ c)
    (env : Nat → Probe) (s : State) :
    (check_for_event env s).2.calls.count c = s.calls.count c := by
  rw [check_for_event_calls]
  split <;> simp [count_checks c hc]

theorem exitwhen_close_calls (env : Nat → Probe) (s : State) :
    (exitwhen_close env s).calls =
      (check_for_event env s).2.calls ++
        (if (exitwhen_close env s).connections = 0 then
          (if (check_for_event env s).1 = true then [Call.nbdkit_shutdown]
           else [Call.resume_polling_thread])
         else []) := by
  rw [exitwhen_close_connections]
  have hc := check_for_event_connections env s
  have h1 : (check_for_event env s).1 = (check_for_event env s).2.exiting := rfl
  simp only [exitwhen_close, resume_polling_thread]
  by_cases h0 : (s.connections + (UINT_RANGE - 1)) % UINT_RANGE = 0
  · cases h2 : (check_for_event env s).2.exiting <;>
      simp [hc, h0, h1, h2, record]
  · simp [hc, h0, h1]

/-- C8: in a state with at least one connection, `exitwhen_close` runs
`check_for_event` first and then decrements `connections` by exactly one.
After the check it calls `nbdkit_shutdown` exactly when the new count is 0
and `exiting` is true, calls `resume_polling_thread` (unlocking `pause_lock`)
exactly when the new count is 0 and `exiting` is false, and when the new
count is not 0 it makes no further call and leaves `pause_lock` alone. -/
theorem exitwhen_close_spec (env : Nat → Probe) (s : State)
    (h1 : 1 ≤ s.connections) (h2 : s.connections < UINT_RANGE) :
    (exitwhen_close env s).connections = s.connections - 1 ∧
    (exitwhen_close env s).exiting = (check_for_event env s).1 ∧
    (exitwhen_close env s).calls =
      (check_for_event env s).2.calls ++
        (if s.connections - 1 = 0 then
          (if (check_for_event env s).1 = true then [Call.nbdkit_shutdown]
           else [Call.resume_polling_thread])
         else []) ∧
    shutdowns (exitwhen_close env s) = shutdowns s +
      (if s.connections - 1 = 0 ∧ (check_for_event env s).1 = true then 1 else 0) ∧
    (exitwhen_close env s).calls.count Call.resume_polling_thread =
      s.calls.count Call.resume_polling_thread +
      (if s.connections - 1 = 0 ∧ (check_for_event env s).1 = false then 1 else 0) ∧
    (exitwhen_close env s).pause_lock =
      (if s.connections - 1 = 0 ∧ (check_for_event env s).1 = false then false
       else s.pause_lock) := by
  have hc : (exitwhen_close env s).connections = s.connections - 1 := by
    rw [exitwhen_close_connections]
    unfold UINT_RANGE at *
    omega
  have hcalls := exitwhen_close_calls env s
  have hsh := exitwhen_close_shutdowns env s
  have hpl := exitwhen_close_pause_lock env s
  rw [hc] at hcalls hsh hpl
  refine ⟨hc, exitwhen_close_exiting env s, hcalls, hsh, ?_, hpl⟩
  rw [hcalls, List.count_append,
    check_for_event_count Call.resume_polling_thread (by simp) env s]
  by_cases h0 : s.connections - 1 = 0
  · cases hr : (check_for_event env s).1 <;> simp [h0]
  · simp [h0]

/-- Witness for `exitwhen_close_spec`: the last connection closes while the
check of a FileCreated event is Observed. -/
theorem exitwhen_close_spec_witness :
    (exitwhen_close (fun _ => ⟨0, 0, 0, 0, 0, 0⟩)
      { init_state [⟨EventType.EVENT_FILE_CREATED, EventData.filename "/p"⟩] 60 with
        connections := 1, pause_lock := true }).connections = 0 ∧
    shutdowns (exitwhen_close (fun _ => ⟨0, 0, 0, 0, 0, 0⟩)
      { init_state [⟨EventType.EVENT_FILE_CREATED, EventData.filename "/p"⟩] 60 with
        connections := 1, pause_lock := true }) = 1 := by
  have h := exitwhen_close_spec (fun _ => ⟨0, 0, 0, 0, 0, 0⟩)
    { init_state [⟨EventType.EVENT_FILE_CREATED, EventData.filename "/p"⟩] 60 with
      connections := 1, pause_lock := true } (by decide) (by decide)
  exact ⟨h.1, by decide⟩

/-- C9: `exitwhen_preconnect` returns -1 without calling `next` or
`nbdkit_shutdown` whenever `check_for_event` returns true, in particular in
every state where `exiting` is already true; otherwise it calls `next` once
and returns -1 if `next` returned -1 and 0 if not; it never changes
`connections`. -/
theorem exitwhen_preconnect_spec (env : Nat → Probe) (nr : Int) (s : State) :
    ((check_for_event env s).1 = true →
      exitwhen_preconnect env nr s = (-1, (check_for_event env s).2)) ∧
    ((check_for_event env s).1 = false →
      exitwhen_preconnect env nr s =
        (if nr = -1 then -1 else 0,
         record Call.next_preconnect (check_for_event env s).2)) ∧
    (s.exiting = true → exitwhen_preconnect env nr s = (-1, s)) ∧
    (exitwhen_preconnect env nr s).2.calls.count Call.next_preconnect =
      s.calls.count Call.next_preconnect +
        (if (check_for_event env s).1 = true then 0 else 1) ∧
    shutdowns (exitwhen_preconnect env nr s).2 = shutdowns s ∧
    (exitwhen_preconnect env nr s).2.connections = s.connections := by
  have hcnt := check_for_event_count Call.next_preconnect (by simp) env s
  have hconn := check_for_event_connections env s
  refine ⟨?_, ?_, ?_, ?_, exitwhen_preconnect_shutdowns env nr s, ?_⟩
  · intro h
    simp [exitwhen_preconnect, h]
  · intro h
    by_cases hn : nr = -1 <;> simp [exitwhen_preconnect, h, hn]
  · intro h
    simp [exitwhen_preconnect, check_for_event, h]
  · cases h : (check_for_event env s).1
    · by_cases hn : nr = -1 <;>
        simp [exitwhen_preconnect, h, hn, record, List.count_append, hcnt]
    · simp [exitwhen_preconnect, h, hcnt]
  · cases h : (check_for_event env s).1
    · by_cases hn : nr = -1 <;> simp [exitwhen_preconnect, h, hn, record, hconn]
    · simp [exitwhen_preconnect, h, hconn]

/-- C10: `exitwhen_get_ready` ends the process with status `EXIT_SUCCESS`,
which is 0, without calling `next` or `nbdkit_shutdown`, exactly when
`check_for_event` returns true, as it does for a registry holding one
ScriptExit event whose command exits with code 88; otherwise it calls `next`
once and returns what `next` returned. -/
theorem exitwhen_get_ready_spec (env : Nat → Probe) (nr : Int) (s : State) :
    ((exitwhen_get_ready env nr s).1 = GetReady.exit 0 ↔
      (check_for_event env s).1 = true) ∧
    ((check_for_event env s).1 = true →
      exitwhen_get_ready env nr s =
        (GetReady.exit EXIT_SUCCESS, (check_for_event env s).2)) ∧
    ((check_for_event env s).1 = false →
      exitwhen_get_ready env nr s =
        (GetReady.ret nr, record Call.next_get_ready (check_for_event env s).2)) ∧
    (exitwhen_get_ready env nr s).2.calls.count Call.next_get_ready =
      s.calls.count Call.next_get_ready +
        (if (check_for_event env s).1 = true then 0 else 1) ∧
    shutdowns (exitwhen_get_ready env nr s).2 = shutdowns s ∧
    (∀ cmd secs, (exitwhen_get_ready (fun _ => ⟨0, 0, 0, 0, 88 * 256, 0⟩) nr
      (init_state [⟨EventType.EVENT_SCRIPT, EventData.filename cmd⟩] secs)).1 =
        GetReady.exit 0) := by
  have hcnt := check_for_event_count Call.next_get_ready (by simp) env s
  refine ⟨?_, ?_, ?_, ?_, exitwhen_get_ready_shutdowns env nr s, ?_⟩
  · cases h : (check_for_event env s).1 <;>
      simp [exitwhen_get_ready, h, EXIT_SUCCESS]
  · intro h
    simp [exitwhen_get_ready, h]
  · intro h
    simp [exitwhen_get_ready, h]
  · cases h : (check_for_event env s).1
    · simp [exitwhen_get_ready, h, record, List.count_append, hcnt]
    · simp [exitwhen_get_ready, h, hcnt]
  · intro cmd secs
    rfl

/-! ## Deadlock of the two mutexes (claim C5) -/

theorem replicate_idle_ne_pausing (n t : Nat) :
    (List.replicate n HookPC.idle)[t]? ≠ some HookPC.open_pausing := by
  rw [List.getElem?_replicate]
  split <;> simp

/-- C5 fails on the code: for every registry and any number of hook threads,
the schedule in which a connection is opened and the polling thread then
starts a cycle is an execution of the interleaving model from the initial
state, and it ends in a state with one connection open, `lock` held by the
polling thread and `pause_lock` held for the connection, in which no action
of any thread is enabled: the poller waits for `pause_lock` holding `lock`,
and `exitwhen_close`, the only code that unlocks `pause_lock`, waits for
`lock`. -/
theorem poller_cycle_during_connection_deadlocks (evs : List Event) (secs n : Nat) :
    ∃ d, Sys.run [Act.open_call 0, Act.open_pause 0, Act.poller_lock]
        (Sys.init evs secs (n + 1)) = some d ∧
      d.vars.connections = 1 ∧ d.vars.exiting = false ∧
      d.lock = true ∧ d.poller = PollerPC.has_lock ∧ d.vars.pause_lock = true ∧
      ∀ a, Sys.step a d = none := by
  refine ⟨{ vars := { init_state evs secs with
                      connections := 1, pause_lock := true,
                      calls := [Call.pause_polling_thread] },
            lock := true, poller := PollerPC.has_lock,
            hooks := List.replicate (n + 1) HookPC.idle }, ?_, rfl, rfl, rfl, rfl, rfl, ?_⟩
  · simp [Sys.run, Sys.step, Sys.init, init_state, UINT_RANGE, pause_polling_thread,
      record, List.replicate_succ, ACQUIRE_LOCK_FOR_CURRENT_SCOPE]
  · intro a
    cases a with
    | poller_lock => simp [Sys.step]
    | poller_cycle env => simp [Sys.step, polling_thread, ACQUIRE_LOCK_FOR_CURRENT_SCOPE]
    | get_ready t env nr => simp [Sys.step, ACQUIRE_LOCK_FOR_CURRENT_SCOPE]
    | preconnect t env nr => simp [Sys.step, ACQUIRE_LOCK_FOR_CURRENT_SCOPE]
    | open_call t => simp [Sys.step, ACQUIRE_LOCK_FOR_CURRENT_SCOPE]
    | open_pause t =>
      have h := replicate_idle_ne_pausing (n + 1) t
      simp only [Sys.step, h, if_false]
    | close t env => simp [Sys.step, ACQUIRE_LOCK_FOR_CURRENT_SCOPE]

/-! ## Connection accounting and the pause lock (claims C6, C7) -/

theorem exitwhen_preconnect_frame (env : Nat → Probe) (nr : Int) (s : State) :
    (exitwhen_preconnect env nr s).2.connections = s.connections ∧
    (exitwhen_preconnect env nr s).2.pause_lock = s.pause_lock ∧
    (exitwhen_preconnect env nr s).2.events = s.events := by
  have h1 := check_for_event_connections env s
  have h2 := check_for_event_pause_lock env s
  have h3 := check_for_event_events env s
  simp only [exitwhen_preconnect, record]
  split
  · exact ⟨h1, h2, h3⟩
  · split <;> exact ⟨h1, h2, h3⟩

theorem exitwhen_get_ready_frame (env : Nat → Probe) (nr : Int) (s : State) :
    (exitwhen_get_ready env nr s).2.connections = s.connections ∧
    (exitwhen_get_ready env nr s).2.pause_lock = s.pause_lock ∧
    (exitwhen_get_ready env nr s).2.events = s.events := by
  have h1 := check_for_event_connections env s
  have h2 := check_for_event_pause_lock env s
  have h3 := check_for_event_events env s
  simp only [exitwhen_get_ready, record]
  split <;> exact ⟨h1, h2, h3⟩

theorem conn_inv_of_frame (c : Nat) (s s1 : State) (hi : conn_inv c s)
    (hc : s1.connections = s.connections) (hp : s1.pause_lock = s.pause_lock)
    (he : s1.exiting = false → s.exiting = false) : conn_inv c s1 := by
  obtain ⟨i1, i2, i3, i4⟩ := hi
  refine ⟨by rw [hc]; exact i1, i2, ?_, ?_⟩
  · intro h; rw [hp]; exact i3 h
  · intro h1 h2; rw [hp] at h2; exact i4 (he h1) h2

theorem step_conn_inv (op : Op) (s s1 : State) (c c1 : Nat) (hi : conn_inv c s)
    (h : step op s = some s1) (hc : open_handles [op] c = some c1) :
    conn_inv c1 s1 := by
  cases op with
  | polling_thread env =>
    simp only [open_handles, Option.some.injEq] at hc
    subst hc
    obtain ⟨p0, p1, pe, pc, -, -, -⟩ := polling_thread_some env s s1 h
    refine conn_inv_of_frame c s s1 hi pc (by rw [p0, p1]) ?_
    intro h1
    rw [pe] at h1
    simpa using (Bool.or_eq_false_iff.mp h1).1
  | exitwhen_get_ready env nr =>
    simp only [open_handles, Option.some.injEq] at hc
    subst hc
    have hf := exitwhen_get_ready_frame env nr s
    have he := exitwhen_get_ready_exiting env nr s
    simp only [step] at h
    split at h
    · exact absurd h (by simp)
    · rename_i heq
      simp only [Option.some.injEq] at h
      subst h
      rw [heq] at hf he
      refine conn_inv_of_frame c s _ hi hf.1 hf.2.1 ?_
      intro h1
      simp only at he
      rw [he] at h1
      simpa using (Bool.or_eq_false_iff.mp h1).1
  | exitwhen_preconnect env nr =>
    simp only [open_handles, Option.some.injEq] at hc
    subst hc
    simp only [step, Option.some.injEq] at h
    subst h
    have hf := exitwhen_preconnect_frame env nr s
    refine conn_inv_of_frame c s _ hi hf.1 hf.2.1 ?_
    intro h1
    rw [exitwhen_preconnect_exiting] at h1
    simpa using (Bool.or_eq_false_iff.mp h1).1
  | exitwhen_open nr =>
    simp only [step, Option.map_eq_some'] at h
    obtain ⟨r, hr, rfl⟩ := h
    obtain ⟨oe, -, -, -, o1, o2⟩ := exitwhen_open_some nr s r hr
    by_cases hn : nr = -1
    · simp only [open_handles, hn, if_true, Option.some.injEq] at hc
      subst hc
      obtain ⟨-, a, b⟩ := o1 hn
      exact conn_inv_of_frame c s _ hi a b (by rw [oe]; exact id)
    · simp only [open_handles, hn, if_false, Option.some.injEq] at hc
      subst hc
      obtain ⟨-, a, b, d⟩ := o2 hn
      unfold conn_inv at hi ⊢
      obtain ⟨i1, i2, i3, i4⟩ := hi
      unfold UINT_RANGE at *
      have hlt : c < 4294967296 := by
        by_contra hge
        have hc0 : c = 4294967296 := by omega
        have : r.2.connections = 1 := by rw [a, i1, hc0]
        have := (b this).1
        rw [i3 (by omega)] at this
        exact absurd this (by simp)
      refine ⟨by rw [a, i1]; omega, by omega, ?_, fun _ _ => by omega⟩
      intro _
      by_cases h1 : r.2.connections = 1
      · exact (b h1).2
      · rw [d h1]
        apply i3
        by_contra hc0
        apply h1
        rw [a, i1]
        have : c = 0 := by omega
        subst this
        rfl
  | exitwhen_close env =>
    simp only [step, Option.some.injEq] at h
    subst h
    simp only [open_handles] at hc
    split at hc
    · exact absurd hc (by simp)
    · rename_i hc0
      simp only [Option.some.injEq] at hc
      subst hc
      unfold conn_inv at hi ⊢
      obtain ⟨i1, i2, i3, i4⟩ := hi
      have hconn := exitwhen_close_connections env s
      have hpl := exitwhen_close_pause_lock env s
      have hex := exitwhen_close_exiting env s
      unfold UINT_RANGE at *
      have hconn1 : (exitwhen_close env s).connections = c - 1 := by
        rw [hconn, i1]; omega
      have hs : s.pause_lock = true := i3 (by omega)
      refine ⟨by rw [hconn1]; omega, by omega, ?_, ?_⟩
      · intro hge
        rw [hpl, hconn1, hs]
        have : c - 1 ≠ 0 := by omega
        simp [this]
      · intro he hp
        rw [hex] at he
        rw [hpl, hconn1] at hp
        by_contra hlt
        have : c - 1 = 0 := by omega
        simp [this, he] at hp
  | exitwhen_config cfg key value =>
    simp only [open_handles, Option.some.injEq] at hc
    subst hc
    simp only [step, Option.map_eq_some'] at h
    obtain ⟨r, hr, rfl⟩ := h
    obtain ⟨a, b, d, -⟩ := exitwhen_config_some cfg key value s r hr
    exact conn_inv_of_frame c s _ hi b d (by rw [a]; exact id)
  | check_for_event env =>
    simp only [open_handles, Option.some.injEq] at hc
    subst hc
    simp only [step, Option.some.injEq] at h
    subst h
    refine conn_inv_of_frame c s _ hi (check_for_event_connections env s)
      (check_for_event_pause_lock env s) ?_
    intro h1
    rw [check_for_event_exiting] at h1
    simpa using (Bool.or_eq_false_iff.mp h1).1

theorem open_handles_cons (op : Op) (ops : List Op) (c : Nat) :
    open_handles (op :: ops) c = (open_handles [op] c).bind (open_handles ops) := by
  cases op <;> simp [open_handles]
  split <;> simp

theorem run_conn_inv (ops : List Op) (s s1 : State) (c c1 : Nat) (hi : conn_inv c s)
    (h : run ops s = some s1) (hc : open_handles ops c = some c1) :
    conn_inv c1 s1 := by
  induction ops generalizing s c with
  | nil =>
    simp only [run, Option.some.injEq] at h
    simp only [open_handles, Option.some.injEq] at hc
    subst h hc
    exact hi
  | cons op ops ih =>
    simp only [run, Option.bind_eq_some] at h
    obtain ⟨s2, h2, h3⟩ := h
    rw [open_handles_cons, Option.bind_eq_some] at hc
    obtain ⟨c2, hc2, hc3⟩ := hc
    exact ih s2 c2 (step_conn_inv op s s2 c c2 hi h2 hc2) h3 hc3

theorem conn_inv_init (evs : List Event) (secs : Nat) :
    conn_inv 0 (init_state evs secs) := by
  simp [conn_inv, init_state, UINT_RANGE]

theorem run_append (a b : List Op) (s : State) :
    run (a ++ b) s = (run a s).bind (run b) := by
  induction a generalizing s with
  | nil => simp [run]
  | cons op a ih =>
    simp only [List.cons_append, run]
    cases step op s with
    | none => simp
    | some s2 => simp [ih]

theorem run_one_open (s : State) (hp : s.pause_lock = true) (h1 : 1 ≤ s.connections)
    (hn : s.connections < UINT_RANGE) :
    ∃ s1, run [Op.exitwhen_open 0] s = some s1 ∧
      s1.connections = (s.connections + 1) % UINT_RANGE ∧
      s1.pause_lock = true ∧ s1.exiting = s.exiting := by
  have hne : (s.connections + 1) % UINT_RANGE ≠ 1 := by
    unfold UINT_RANGE at *
    omega
  obtain ⟨r, hr⟩ := exitwhen_open_isSome 0 s (Or.inr hne)
  obtain ⟨oe, -, -, -, -, o2⟩ := exitwhen_open_some 0 s r hr
  obtain ⟨-, a, -, d⟩ := o2 (by decide)
  refine ⟨r.2, by simp [run, step, hr], a, ?_, oe⟩
  rw [d (by rw [a]; exact hne), hp]

theorem run_opens (n : Nat) (s : State) (hp : s.pause_lock = true)
    (h1 : 1 ≤ s.connections) (hn : s.connections + n < UINT_RANGE) :
    ∃ s1, run (List.replicate n (Op.exitwhen_open 0)) s = some s1 ∧
      s1.connections = s.connections + n ∧ s1.pause_lock = true ∧
      s1.exiting = s.exiting := by
  induction n generalizing s with
  | zero => exact ⟨s, rfl, rfl, hp, rfl⟩
  | succ n ih =>
    obtain ⟨s2, r2, c2, p2, e2⟩ := run_one_open s hp h1 (by omega)
    have c2b : s2.connections = s.connections + 1 := by
      rw [c2]
      unfold UINT_RANGE at *
      omega
    obtain ⟨s3, r3, c3, p3, e3⟩ := ih s2 p2 (by omega) (by omega)
    refine ⟨s3, ?_, by omega, p3, by rw [e3, e2]⟩
    rw [List.replicate_succ]
    have : Op.exitwhen_open 0 :: List.replicate n (Op.exitwhen_open 0) =
        [Op.exitwhen_open 0] ++ List.replicate n (Op.exitwhen_open 0) := rfl
    rw [this, run_append, r2]
    exact r3

theorem open_handles_opens (n c : Nat) :
    open_handles (List.replicate n (Op.exitwhen_open 0)) c = some (c + n) := by
  induction n generalizing c with
  | zero => rfl
  | succ n ih =>
    rw [List.replicate_succ]
    simp only [open_handles]
    rw [ih]
    simp
    omega

theorem replicate_uint_range (op : Op) :
    List.replicate UINT_RANGE op =
      [op] ++ List.replicate (UINT_RANGE - 2) op ++ [op] := by
  have h : UINT_RANGE = 1 + (UINT_RANGE - 2) + 1 := by
    unfold UINT_RANGE
    omega
  conv_lhs => rw [h]
  rw [List.replicate_add, List.replicate_add, List.replicate_one]

theorem run_first_open :
    ∃ s1, run [Op.exitwhen_open 0] (init_state [] 60) = some s1 ∧
      s1.connections = 1 ∧ s1.pause_lock = true ∧ s1.exiting = false :=
  ⟨_, rfl, rfl, rfl, rfl⟩

theorem run_wrapping_opens :
    ∃ s, run (List.replicate UINT_RANGE (Op.exitwhen_open 0)) (init_state [] 60) = some s ∧
      s.exiting = false ∧ s.connections = 0 ∧ s.pause_lock = true := by
  obtain ⟨s1, r1, c1, p1, e1⟩ := run_first_open
  obtain ⟨s2, r2, c2, p2, e2⟩ := run_opens (UINT_RANGE - 2) s1 p1 (by omega)
    (by rw [c1]; unfold UINT_RANGE; omega)
  obtain ⟨s3, r3, c3, p3, e3⟩ := run_one_open s2 p2 (by omega)
    (by rw [c2, c1]; unfold UINT_RANGE; omega)
  refine ⟨s3, ?_, by rw [e3, e2, e1], ?_, p3⟩
  · rw [replicate_uint_range, run_append, run_append, r1, Option.some_bind, r2,
      Option.some_bind]
    exact r3
  · rw [c3, c2, c1]
    unfold UINT_RANGE
    omega

/-- C6, as stated, fails in its last part: after `UINT_RANGE` successful
calls of `exitwhen_open` and no close, the counter has wrapped to 0 while
`exiting` is false and `pause_lock` is still locked for the open
connections. -/
theorem pause_lock_held_at_zero_after_wrap :
    ∃ s, run (List.replicate UINT_RANGE (Op.exitwhen_open 0)) (init_state [] 60) = some s ∧
      open_handles (List.replicate UINT_RANGE (Op.exitwhen_open 0)) 0 = some UINT_RANGE ∧
      s.exiting = false ∧ s.connections = 0 ∧ s.pause_lock = true := by
  obtain ⟨s, h1, h2, h3, h4⟩ := run_wrapping_opens
  refine ⟨s, h1, ?_, h2, h3, h4⟩
  rw [open_handles_opens, Nat.zero_add]

/-- C6, amended: in every state reached from the initial state by operations
whose `exitwhen_close` calls each match an earlier successful
`exitwhen_open`, `connections >= 1` implies that `pause_lock` is locked, and
so does an open connection; while it is locked no poller cycle can run.
While `exiting` is false and fewer than `UINT_RANGE` connections are open,
`connections = 0` implies that `pause_lock` is free and a poller cycle
runs. -/
theorem pause_lock_held_while_connected (evs : List Event) (secs : Nat)
    (ops : List Op) (s : State) (c : Nat)
    (hrun : run ops (init_state evs secs) = some s)
    (hc : open_handles ops 0 = some c) :
    (1 ≤ s.connections → s.pause_lock = true) ∧
    (1 ≤ c → s.pause_lock = true) ∧
    (s.pause_lock = true → ∀ env, polling_thread env s = none) ∧
    (s.exiting = false → c < UINT_RANGE → s.connections = 0 →
      s.pause_lock = false ∧ ∀ env, ∃ s1, polling_thread env s = some s1) := by
  obtain ⟨i1, i2, i3, i4⟩ := run_conn_inv ops _ s 0 c (conn_inv_init evs secs) hrun hc
  refine ⟨?_, i3, fun hp env => polling_thread_blocked env s hp, ?_⟩
  · intro h
    apply i3
    by_contra h0
    have : c = 0 := by omega
    subst this
    rw [i1] at h
    simp at h
  · intro he hlt h0
    have hp : s.pause_lock = false := by
      cases hp : s.pause_lock
      · rfl
      · have := i4 he hp
        rw [i1, Nat.mod_eq_of_lt hlt] at h0
        omega
    exact ⟨hp, fun env => polling_thread_isSome env s hp⟩

/-- Witness for `pause_lock_held_while_connected`: one successful
`exitwhen_open` from the initial state. -/
theorem pause_lock_held_while_connected_witness :
    ∃ s, run [Op.exitwhen_open 0] (init_state [] 60) = some s ∧
      (1 ≤ s.connections → s.pause_lock = true) :=
  ⟨_, rfl, (pause_lock_held_while_connected [] 60 [Op.exitwhen_open 0] _ 1 rfl rfl).1⟩

theorem observed_fd_closed (u : EventData) (p : Probe) :
    observed ⟨EventType.EVENT_FD_CLOSED, u⟩ p = true ↔
      p.poll_ret = 1 ∧ (p.revents &&& POLLHUP ≠ 0 ∨ p.revents &&& POLLNVAL ≠ 0) := by
  simp only [observed, check_one, check_for_event_fd_closed, init_state]
  by_cases h1 : p.poll_ret = 1
  · by_cases h2 : p.revents &&& POLLHUP = 0
    · by_cases h3 : p.revents &&& POLLNVAL = 0 <;> simp [h1, h2, h3]
    · simp [h1, h2]
  · by_cases h4 : p.poll_ret = -1 <;> simp [h1, h4]

theorem observed_script (u : EventData) (p : Probe) :
    observed ⟨EventType.EVENT_SCRIPT, u⟩ p = true ↔
      p.system_ret ≠ -1 ∧ WIFEXITED p.system_ret = true ∧
        WEXITSTATUS p.system_ret = 88 := by
  simp only [observed, check_one, check_for_event_script, init_state]
  by_cases h1 : p.system_ret = -1
  · simp [h1]
  · cases h2 : WIFEXITED p.system_ret
    · simp [h1]
    · by_cases h3 : WEXITSTATUS p.system_ret = 0
      · simp [h1, h3]
      · by_cases h4 : WEXITSTATUS p.system_ret = 88 <;> simp [h1, h3, h4]

/-- C11: `check_for_event_fd_closed` sets `exiting` (the check is Observed)
exactly when `poll` returned 1 and `revents` has `POLLHUP` or `POLLNVAL`
set, and changes nothing else; so a closed peer and an invalid descriptor
are both Observed, while an open pipe without data (`poll` returns 0) and a
failed probe (`poll` returns -1) are Pending and leave the state as it
was. -/
theorem check_for_event_fd_closed_spec (u : EventData) (p : Probe) (s : State) :
    (observed ⟨EventType.EVENT_FD_CLOSED, u⟩ p = true ↔
      p.poll_ret = 1 ∧ (p.revents &&& POLLHUP ≠ 0 ∨ p.revents &&& POLLNVAL ≠ 0)) ∧
    check_for_event_fd_closed p s =
      { s with exiting := s.exiting || observed ⟨EventType.EVENT_FD_CLOSED, u⟩ p } ∧
    (p.poll_ret = 1 → p.revents &&& POLLHUP ≠ 0 →
      (check_for_event_fd_closed p s).exiting = true) ∧
    (p.poll_ret = 1 → p.revents &&& POLLNVAL ≠ 0 →
      (check_for_event_fd_closed p s).exiting = true) ∧
    (p.poll_ret = 0 → check_for_event_fd_closed p s = s) ∧
    (p.poll_ret = -1 → check_for_event_fd_closed p s = s) := by
  have hobs := observed_fd_closed u p
  have heq := check_one_eq ⟨EventType.EVENT_FD_CLOSED, u⟩ p s
  simp only [check_one] at heq
  refine ⟨hobs, heq, ?_, ?_, ?_, ?_⟩
  · intro h1 h2
    rw [heq]
    simp [hobs.mpr ⟨h1, Or.inl h2⟩]
  · intro h1 h2
    rw [heq]
    simp [hobs.mpr ⟨h1, Or.inr h2⟩]
  · intro h1
    simp [check_for_event_fd_closed, h1]
  · intro h1
    simp [check_for_event_fd_closed, h1]

/-- C12: `check_for_event_script` sets `exiting` (the check is Observed)
exactly when `system` did not return -1 and the wait status is a normal exit
with exit code 88; in every other case, among them exit code 0, exit code 1,
death by signal 9 and a failed spawn, the state is left as it was. -/
theorem check_for_event_script_spec (u : EventData) (p : Probe) (s : State) :
    (observed ⟨EventType.EVENT_SCRIPT, u⟩ p = true ↔
      p.system_ret ≠ -1 ∧ WIFEXITED p.system_ret = true ∧
        WEXITSTATUS p.system_ret = 88) ∧
    check_for_event_script p s =
      { s with exiting := s.exiting || observed ⟨EventType.EVENT_SCRIPT, u⟩ p } ∧
    (observed ⟨EventType.EVENT_SCRIPT, u⟩ p = false → check_for_event_script p s = s) ∧
    (p.system_ret = 88 * 256 → (check_for_event_script p s).exiting = true) ∧
    (p.system_ret = 0 → check_for_event_script p s = s) ∧
    (p.system_ret = 1 * 256 → check_for_event_script p s = s) ∧
    (p.system_ret = 9 → check_for_event_script p s = s) ∧
    (p.system_ret = -1 → check_for_event_script p s = s) := by
  have hobs := observed_script u p
  have heq := check_one_eq ⟨EventType.EVENT_SCRIPT, u⟩ p s
  simp only [check_one] at heq
  refine ⟨hobs, heq, ?_, ?_, ?_, ?_, ?_, ?_⟩
  · intro h
    rw [heq, h]
    simp
  · intro h
    simp [check_for_event_script, h, WIFEXITED, WEXITSTATUS]
  · intro h
    simp [check_for_event_script, h, WIFEXITED, WEXITSTATUS]
  · intro h
    simp [check_for_event_script, h, WIFEXITED, WEXITSTATUS]
  · intro h
    simp [check_for_event_script, h, WIFEXITED, WEXITSTATUS]
  · intro h
    simp [check_for_event_script, h]

/-- C13: on one and the same result of `access`, the FileCreated and the
FileDeleted check are complementary and depend on that result alone.  When
`access` succeeds FileCreated is Observed and FileDeleted is Pending; when it
fails with `ENOENT` or `ENOTDIR` FileCreated is Pending and FileDeleted is
Observed, whether or not the path ever existed; when it fails with another
error both are Pending.  Each check only adds its outcome to `exiting`. -/
theorem file_created_deleted_complementary (u : EventData) (p : Probe) (s : State) :
    (p.access_ret = 0 →
      observed ⟨EventType.EVENT_FILE_CREATED, u⟩ p = true ∧
      observed ⟨EventType.EVENT_FILE_DELETED, u⟩ p = false) ∧
    (p.access_ret = -1 → (p.errno = ENOENT ∨ p.errno = ENOTDIR) →
      observed ⟨EventType.EVENT_FILE_CREATED, u⟩ p = false ∧
      observed ⟨EventType.EVENT_FILE_DELETED, u⟩ p = true) ∧
    (p.access_ret = -1 → p.errno ≠ ENOENT → p.errno ≠ ENOTDIR →
      observed ⟨EventType.EVENT_FILE_CREATED, u⟩ p = false ∧
      observed ⟨EventType.EVENT_FILE_DELETED, u⟩ p = false) ∧
    check_for_event_file_created p s =
      { s with exiting := s.exiting || observed ⟨EventType.EVENT_FILE_CREATED, u⟩ p } ∧
    check_for_event_file_deleted p s =
      { s with exiting := s.exiting || observed ⟨EventType.EVENT_FILE_DELETED, u⟩ p } := by
  have hc := check_one_eq ⟨EventType.EVENT_FILE_CREATED, u⟩ p s
  have hd := check_one_eq ⟨EventType.EVENT_FILE_DELETED, u⟩ p s
  simp only [check_one] at hc hd
  refine ⟨?_, ?_, ?_, hc, hd⟩
  · intro h
    simp [observed, check_one, check_for_event_file_created,
      check_for_event_file_deleted, init_state, h]
  · intro h he
    rcases he with he | he <;>
      simp [observed, check_one, check_for_event_file_created,
        check_for_event_file_deleted, init_state, h, he]
  · intro h h1 h2
    simp [observed, check_one, check_for_event_file_created,
      check_for_event_file_deleted, init_state, h, h1, h2]

/-- C15: when `check_for_event` is entered with `exiting` already true it
returns true and the state is exactly the state on entry: no event check is
invoked, so no probe is made and no script is run. -/
theorem check_for_event_latched (env : Nat → Probe) (s : State)
    (h : s.exiting = true) :
    check_for_event env s = (true, s) ∧
    (check_for_event env s).2.calls = s.calls ∧
    ∀ i, Call.check i ∉ (check_for_event env s).2.calls.drop s.calls.length := by
  have heq : check_for_event env s = (true, s) := by
    rw [check_for_event_eq, h]
    rfl
  refine ⟨heq, by rw [heq], ?_⟩
  intro i
  rw [heq]
  simp

/-- Witness for `check_for_event_latched`: a registry with a ScriptExit event
whose command would exit with code 88, entered with `exiting` true. -/
theorem check_for_event_latched_witness :
    check_for_event (fun _ => ⟨0, 0, 0, 0, 88 * 256, 0⟩)
      { init_state [⟨EventType.EVENT_SCRIPT, EventData.filename "cmd"⟩] 60 with
        exiting := true } =
      (true, { init_state [⟨EventType.EVENT_SCRIPT, EventData.filename "cmd"⟩] 60 with
        exiting := true }) :=
  (check_for_event_latched (fun _ => ⟨0, 0, 0, 0, 88 * 256, 0⟩)
    { init_state [⟨EventType.EVENT_SCRIPT, EventData.filename "cmd"⟩] 60 with
      exiting := true } rfl).1

/-! ## The empty registry (claim C14) -/

theorem step_quiet_registry (op : Op) (s s1 : State) (h : step op s = some s1)
    (hop : runtime_only [op] = true) (hev : s.events = []) (hex : s.exiting = false) :
    s1.events = [] ∧ s1.exiting = false := by
  cases op with
  | polling_thread env =>
    obtain ⟨-, -, pe, -, pv, -, -⟩ := polling_thread_some env s s1 h
    rw [pv, pe, hev, hex]
    exact ⟨rfl, rfl⟩
  | exitwhen_get_ready env nr =>
    have hf := exitwhen_get_ready_frame env nr s
    have he := exitwhen_get_ready_exiting env nr s
    simp only [step] at h
    split at h
    · exact absurd h (by simp)
    · rename_i heq
      simp only [Option.some.injEq] at h
      subst h
      rw [heq] at hf he
      simp only at hf he
      rw [hf.2.2, he, hev, hex]
      exact ⟨rfl, rfl⟩
  | exitwhen_preconnect env nr =>
    simp only [step, Option.some.injEq] at h
    subst h
    rw [(exitwhen_preconnect_frame env nr s).2.2, exitwhen_preconnect_exiting, hev, hex]
    exact ⟨rfl, rfl⟩
  | exitwhen_open nr =>
    simp only [step, Option.map_eq_some'] at h
    obtain ⟨r, hr, rfl⟩ := h
    obtain ⟨oe, ov, -, -, -, -⟩ := exitwhen_open_some nr s r hr
    rw [oe, ov]
    exact ⟨hev, hex⟩
  | exitwhen_close env =>
    simp only [step, Option.some.injEq] at h
    subst h
    rw [exitwhen_close_events, exitwhen_close_exiting, check_for_event_fst, hev, hex]
    exact ⟨rfl, rfl⟩
  | exitwhen_config c key value => simp [runtime_only] at hop
  | check_for_event env =>
    simp only [step, Option.some.injEq] at h
    subst h
    rw [check_for_event_events, check_for_event_exiting, hev, hex]
    exact ⟨rfl, rfl⟩

theorem runtime_only_cons (op : Op) (ops : List Op) :
    runtime_only (op :: ops) = (runtime_only [op] && runtime_only ops) := by
  cases op <;> simp [runtime_only]

theorem run_quiet_registry (ops : List Op) (s s1 : State) (h : run ops s = some s1)
    (hop : runtime_only ops = true) (hev : s.events = []) (hex : s.exiting = false) :
    s1.events = [] ∧ s1.exiting = false := by
  induction ops generalizing s with
  | nil =>
    simp only [run, Option.some.injEq] at h
    subst h
    exact ⟨hev, hex⟩
  | cons op ops ih =>
    simp only [run, Option.bind_eq_some] at h
    obtain ⟨s2, h2, h3⟩ := h
    rw [runtime_only_cons, Bool.and_eq_true] at hop
    obtain ⟨e2, x2⟩ := step_quiet_registry op s s2 h2 hop.1 hev hex
    exact ih s2 h3 hop.2 e2 x2

/-- C14: with an empty registry `check_for_event` always returns false.  In
every state reached from the initial state with no event registered, by any
sequence of poller cycles and lifecycle hooks, the registry is still empty,
`exiting` is false, `nbdkit_shutdown` has not been invoked, and
`check_for_event` returns false and leaves the state as it is. -/
theorem empty_registry_never_triggers (secs : Nat) (ops : List Op) (s : State)
    (hop : runtime_only ops = true)
    (hrun : run ops (init_state [] secs) = some s) :
    s.events = [] ∧ s.exiting = false ∧ shutdowns s = 0 ∧
    ∀ env, check_for_event env s = (false, s) := by
  obtain ⟨hev, hex⟩ := run_quiet_registry ops _ s hrun hop rfl rfl
  obtain ⟨-, -, h3⟩ := run_shutdowns ops _ s hrun
  have h0 : shutdowns (init_state [] secs) = 0 := rfl
  rw [h0] at h3
  refine ⟨hev, hex, ?_, ?_⟩
  · by_contra hne
    have := h3 (by omega)
    rw [hex] at this
    exact absurd this (by simp)
  · intro env
    rw [check_for_event_eq, hex, hev]
    obtain ⟨ps, cn, ex, evs, pl, cl⟩ := s
    simp only at hev hex
    subst hev hex
    simp [any_observed]

/-- Witness for `empty_registry_never_triggers`: a readiness check, a poller
cycle, and one connection that is accepted, opened and closed, all with
probe results that would be Observed by any registered event. -/
theorem empty_registry_never_triggers_witness :
    ∃ s, run [Op.exitwhen_get_ready (fun _ => ⟨0, -1, 1, 16, 88 * 256, 3⟩) 0,
          Op.polling_thread (fun _ => ⟨0, -1, 1, 16, 88 * 256, 3⟩),
          Op.exitwhen_preconnect (fun _ => ⟨0, -1, 1, 16, 88 * 256, 3⟩) 0,
          Op.exitwhen_open 0,
          Op.exitwhen_close (fun _ => ⟨0, -1, 1, 16, 88 * 256, 3⟩)]
        (init_state [] 60) = some s ∧
      s.exiting = false ∧ shutdowns s = 0 :=
  ⟨_, rfl,
    (empty_registry_never_triggers 60
      [Op.exitwhen_get_ready (fun _ => ⟨0, -1, 1, 16, 88 * 256, 3⟩) 0,
       Op.polling_thread (fun _ => ⟨0, -1, 1, 16, 88 * 256, 3⟩),
       Op.exitwhen_preconnect (fun _ => ⟨0, -1, 1, 16, 88 * 256, 3⟩) 0,
       Op.exitwhen_open 0,
       Op.exitwhen_close (fun _ => ⟨0, -1, 1, 16, 88 * 256, 3⟩)] _ rfl rfl).2.1,
    (empty_registry_never_triggers 60
      [Op.exitwhen_get_ready (fun _ => ⟨0, -1, 1, 16, 88 * 256, 3⟩) 0,
       Op.polling_thread (fun _ => ⟨0, -1, 1, 16, 88 * 256, 3⟩),
       Op.exitwhen_preconnect (fun _ => ⟨0, -1, 1, 16, 88 * 256, 3⟩) 0,
       Op.exitwhen_open 0,
       Op.exitwhen_close (fun _ => ⟨0, -1, 1, 16, 88 * 256, 3⟩)] _ rfl rfl).2.2.1⟩

/-! ## Configuration (claims C16, C17, C20) -/

theorem key15_created : "exit-when-file-created".toList[15]? = some 'c' := by decide

theorem key15_deleted : "exit-when-file-deleted".toList[15]? = some 'd' := by decide

theorem append_event_eq (c : ConfigEnv) (e : Event) (s : State) :
    append_event c e s =
      if c.append_ok = true then (0, { s with events := s.events ++ [e] })
      else (-1, s) := by
  cases h : c.append_ok <;> simp [append_event, event_list_append, h]

theorem config_file_created (c : ConfigEnv) (value : String) (s : State) :
    exitwhen_config c "exit-when-file-created" value s =
      match c.absolute_path with
      | none => some (-1, s)
      | some path =>
        some (append_event c ⟨EventType.EVENT_FILE_CREATED, EventData.filename path⟩ s) := by
  simp [exitwhen_config, key15_created]

theorem config_file_deleted (c : ConfigEnv) (value : String) (s : State) :
    exitwhen_config c "exit-when-file-deleted" value s =
      match c.absolute_path with
      | none => some (-1, s)
      | some path =>
        some (append_event c ⟨EventType.EVENT_FILE_DELETED, EventData.filename path⟩ s) := by
  simp [exitwhen_config, key15_deleted]

theorem config_fd_closed (c : ConfigEnv) (key value : String) (s : State)
    (h : key = "exit-when-pipe-closed" ∨ key = "exit-when-fd-closed") :
    exitwhen_config c key value s =
      match c.parse_int with
      | none => some (-1, s)
      | some fd =>
        some (append_event c ⟨EventType.EVENT_FD_CLOSED, EventData.fd fd⟩ s) := by
  rcases h with h | h <;> subst h <;> simp [exitwhen_config]

theorem config_process_exits (c : ConfigEnv) (key value : String) (s : State)
    (h : key = "exit-when-process-exits" ∨ key = "exit-when-pid-exits") :
    exitwhen_config c key value s =
      match c.parse_uint64_t with
      | none => some (-1, s)
      | some _ =>
        if !c.asprintf_ok then some (-1, s)
        else if c.open_ret = -1 then some (-1, s)
        else some (append_event c
          ⟨EventType.EVENT_PROCESS_EXITS, EventData.fd c.open_ret⟩ s) := by
  rcases h with h | h <;> subst h <;> simp [exitwhen_config]

theorem config_script (c : ConfigEnv) (value : String) (s : State) :
    exitwhen_config c "exit-when-script" value s =
      if !c.strdup_ok then some (-1, s)
      else some (append_event c ⟨EventType.EVENT_SCRIPT, EventData.filename value⟩ s) := by
  simp [exitwhen_config]

theorem config_poll (c : ConfigEnv) (value : String) (s : State) :
    exitwhen_config c "exit-when-poll" value s =
      match c.parse_unsigned with
      | none => some (-1, s)
      | some n => some (0, { s with pollsecs := n }) := by
  simp [exitwhen_config]

theorem config_other (c : ConfigEnv) (key value : String) (s : State)
    (h : key ∉ recognised_keys) :
    exitwhen_config c key value s =
      some (c.next_ret, record (Call.next_config key value) s) := by
  simp only [recognised_keys, List.mem_cons, List.mem_singleton, not_or, List.not_mem_nil,
    not_false_eq_true, and_true] at h
  obtain ⟨h1, h2, h3, h4, h5, h6, h7, h8⟩ := h
  simp [exitwhen_config, h1, h2, h3, h4, h5, h6, h7, h8]

theorem config_failure_fd (c : ConfigEnv) (key : String)
    (h : key = "exit-when-pipe-closed" ∨ key = "exit-when-fd-closed") :
    config_failure c key = (c.parse_int.isNone || !c.append_ok) := by
  rcases h with h | h <;> subst h <;> simp [config_failure]

theorem config_failure_process (c : ConfigEnv) (key : String)
    (h : key = "exit-when-process-exits" ∨ key = "exit-when-pid-exits") :
    config_failure c key =
      (c.parse_uint64_t.isNone || !c.asprintf_ok || c.open_ret == -1 || !c.append_ok) := by
  rcases h with h | h <;> subst h <;> simp [config_failure]

theorem exitwhen_config_cases (c : ConfigEnv) (key value : String) (s : State) :
    (key ∉ recognised_keys ∧ exitwhen_config c key value s =
      some (c.next_ret, record (Call.next_config key value) s)) ∨
    (key ∈ recognised_keys ∧ config_failure c key = true ∧
      exitwhen_config c key value s = some (-1, s)) ∨
    (key = "exit-when-poll" ∧ config_failure c key = false ∧
      ∃ n, c.parse_unsigned = some n ∧
        exitwhen_config c key value s = some (0, { s with pollsecs := n })) ∨
    (∃ k u, key_kind key = some k ∧ config_failure c key = false ∧
      exitwhen_config c key value s =
        some (0, { s with events := s.events ++ [⟨k, u⟩] })) := by
  by_cases h1 : key = "exit-when-file-created"
  · subst h1
    rw [config_file_created]
    cases hp : c.absolute_path with
    | none => exact Or.inr (Or.inl ⟨by decide, by simp [config_failure, hp], rfl⟩)
    | some path =>
      simp only [append_event_eq]
      cases ha : c.append_ok
      · exact Or.inr (Or.inl ⟨by decide, by simp [config_failure, ha], by simp⟩)
      · exact Or.inr (Or.inr (Or.inr
          ⟨EventType.EVENT_FILE_CREATED, EventData.filename path, by decide,
            by simp [config_failure, hp, ha], by simp⟩))
  by_cases h2 : key = "exit-when-file-deleted"
  · subst h2
    rw [config_file_deleted]
    cases hp : c.absolute_path with
    | none => exact Or.inr (Or.inl ⟨by decide, by simp [config_failure, hp], rfl⟩)
    | some path =>
      simp only [append_event_eq]
      cases ha : c.append_ok
      · exact Or.inr (Or.inl ⟨by decide, by simp [config_failure, ha], by simp⟩)
      · exact Or.inr (Or.inr (Or.inr
          ⟨EventType.EVENT_FILE_DELETED, EventData.filename path, by decide,
            by simp [config_failure, hp, ha], by simp⟩))
  by_cases h3 : key = "exit-when-pipe-closed" ∨ key = "exit-when-fd-closed"
  · rw [config_fd_closed c key value s h3, config_failure_fd c key h3]
    have hk : key ∈ recognised_keys ∧ key_kind key = some EventType.EVENT_FD_CLOSED := by
      rcases h3 with h | h <;> subst h <;> exact ⟨by decide, by decide⟩
    cases hp : c.parse_int with
    | none => exact Or.inr (Or.inl ⟨hk.1, by simp, rfl⟩)
    | some fd =>
      simp only [append_event_eq]
      cases ha : c.append_ok
      · exact Or.inr (Or.inl ⟨hk.1, by simp, by simp⟩)
      · exact Or.inr (Or.inr (Or.inr
          ⟨EventType.EVENT_FD_CLOSED, EventData.fd fd, hk.2, by simp, by simp⟩))
  by_cases h4 : key = "exit-when-process-exits" ∨ key = "exit-when-pid-exits"
  · rw [config_process_exits c key value s h4, config_failure_process c key h4]
    have hk : key ∈ recognised_keys ∧ key_kind key = some EventType.EVENT_PROCESS_EXITS := by
      rcases h4 with h | h <;> subst h <;> exact ⟨by decide, by decide⟩
    cases hp : c.parse_uint64_t with
    | none => exact Or.inr (Or.inl ⟨hk.1, by simp, rfl⟩)
    | some pid =>
      simp only [append_event_eq]
      cases hs : c.asprintf_ok
      · exact Or.inr (Or.inl ⟨hk.1, by simp, by simp⟩)
      · by_cases ho : c.open_ret = -1
        · exact Or.inr (Or.inl ⟨hk.1, by simp [ho], by simp [ho]⟩)
        · cases ha : c.append_ok
          · exact Or.inr (Or.inl ⟨hk.1, by simp, by simp [ho]⟩)
          · exact Or.inr (Or.inr (Or.inr
              ⟨EventType.EVENT_PROCESS_EXITS, EventData.fd c.open_ret, hk.2,
                by simp [ho], by simp [ho]⟩))
  by_cases h5 : key = "exit-when-script"
  · subst h5
    rw [config_script]
    simp only [append_event_eq]
    cases hs : c.strdup_ok
    · exact Or.inr (Or.inl ⟨by decide, by simp [config_failure, hs], by simp⟩)
    · cases ha : c.append_ok
      · exact Or.inr (Or.inl ⟨by decide, by simp [config_failure, ha], by simp⟩)
      · exact Or.inr (Or.inr (Or.inr
          ⟨EventType.EVENT_SCRIPT, EventData.filename value, by decide,
            by simp [config_failure, hs, ha], by simp⟩))
  by_cases h6 : key = "exit-when-poll"
  · subst h6
    rw [config_poll]
    cases hp : c.parse_unsigned with
    | none => exact Or.inr (Or.inl ⟨by decide, by simp [config_failure, hp], rfl⟩)
    | some n =>
      exact Or.inr (Or.inr (Or.inl ⟨rfl, by simp [config_failure, hp], n, rfl, rfl⟩))
  · have hn : key ∉ recognised_keys := by
      simp only [recognised_keys, List.mem_cons, List.mem_singleton, List.not_mem_nil,
        or_false]
      tauto
    exact Or.inl ⟨hn, config_other c key value s hn⟩

theorem key_kind_mem (key : String) (k : EventType) (h : key_kind key = some k) :
    key ∈ recognised_keys ∧ key ≠ "exit-when-poll" := by
  unfold key_kind at h
  repeat' split at h
  all_goals first
    | (rename_i hk; subst hk; exact ⟨by decide, by decide⟩)
    | (simp at h)

theorem config_failure_other (c : ConfigEnv) (key : String)
    (h : key ∉ recognised_keys) : config_failure c key = false := by
  simp only [recognised_keys, List.mem_cons, List.mem_singleton, not_or, List.not_mem_nil,
    not_false_eq_true, and_true] at h
  obtain ⟨h1, h2, h3, h4, h5, h6, h7, h8⟩ := h
  simp [config_failure, h1, h2, h3, h4, h5, h6, h7, h8]

/-- C16: configuration is atomic on error.  `exitwhen_config` always returns,
and whenever it returns -1 the registry and `pollsecs` are the ones before
the call; every failure cause the specification lists (bad integer, failed
path resolution, failed `asprintf` or `open` of the stat file, failed string
copy, failed append) makes it return -1 with the state untouched.  When it
returns 0 for an event key, the registry is the old registry with exactly one
event of the kind the key names appended at the end, and that is what
happens whenever none of the failure causes applies. -/
theorem exitwhen_config_atomic (c : ConfigEnv) (key value : String) (s : State) :
    ∃ r, exitwhen_config c key value s = some r ∧
      (r.1 = -1 → r.2.events = s.events ∧ r.2.pollsecs = s.pollsecs) ∧
      (config_failure c key = true → r = (-1, s)) ∧
      (∀ k, key_kind key = some k → r.1 = 0 →
        ∃ u, r.2.events = s.events ++ [⟨k, u⟩] ∧ r.2.pollsecs = s.pollsecs) ∧
      (∀ k, key_kind key = some k → config_failure c key = false →
        ∃ u, r = (0, { s with events := s.events ++ [⟨k, u⟩] })) := by
  rcases exitwhen_config_cases c key value s with
    ⟨hk, hr⟩ | ⟨hk, hf, hr⟩ | ⟨hk, hf, n, hn, hr⟩ | ⟨k1, u1, hk, hf, hr⟩
  · refine ⟨_, hr, fun _ => ⟨rfl, rfl⟩, ?_, ?_, ?_⟩
    · intro h
      rw [config_failure_other c key hk] at h
      exact absurd h (by simp)
    · intro k h
      exact absurd (key_kind_mem key k h).1 hk
    · intro k h
      exact absurd (key_kind_mem key k h).1 hk
  · refine ⟨_, hr, fun _ => ⟨rfl, rfl⟩, fun _ => rfl, ?_, ?_⟩
    · intro k _ h
      exact absurd h (by simp)
    · intro k _ h
      rw [hf] at h
      exact absurd h (by simp)
  · refine ⟨_, hr, ?_, ?_, ?_, ?_⟩
    · intro h
      exact absurd h (by simp)
    · intro h
      rw [hf] at h
      exact absurd h (by simp)
    · intro k h
      exact absurd hk (key_kind_mem key k h).2
    · intro k h
      exact absurd hk (key_kind_mem key k h).2
  · refine ⟨_, hr, ?_, ?_, ?_, ?_⟩
    · intro h
      exact absurd h (by simp)
    · intro h
      rw [hf] at h
      exact absurd h (by simp)
    · intro k h _
      rw [hk] at h
      cases h
      exact ⟨u1, rfl, rfl⟩
    · intro k h _
      rw [hk] at h
      cases h
      exact ⟨u1, rfl⟩

/-- C17: for every key that is not one of the eight recognised keys,
`exitwhen_config` calls `next` exactly once, with the same key and value,
returns what `next` returned and leaves the registry and `pollsecs` as they
were; for each of the eight recognised keys it returns without calling
`next`. -/
theorem exitwhen_config_passthrough (c : ConfigEnv) (key value : String) (s : State) :
    ∃ r, exitwhen_config c key value s = some r ∧
      (key ∉ recognised_keys →
        r.1 = c.next_ret ∧
        r.2.calls = s.calls ++ [Call.next_config key value] ∧
        r.2.events = s.events ∧ r.2.pollsecs = s.pollsecs ∧
        r.2 = record (Call.next_config key value) s) ∧
      (key ∈ recognised_keys → r.2.calls = s.calls) := by
  rcases exitwhen_config_cases c key value s with
    ⟨hk, hr⟩ | ⟨hk, hf, hr⟩ | ⟨hk, hf, n, hn, hr⟩ | ⟨k1, u1, hk, hf, hr⟩
  · exact ⟨_, hr, fun _ => ⟨rfl, rfl, rfl, rfl, rfl⟩, fun h => absurd h hk⟩
  · exact ⟨_, hr, fun h => absurd hk h, fun _ => rfl⟩
  · refine ⟨_, hr, fun h => absurd ?_ h, fun _ => rfl⟩
    subst hk
    decide
  · exact ⟨_, hr, fun h => absurd (key_kind_mem key k1 hk).1 h, fun _ => rfl⟩

/-- C20: the assertion of `exitwhen_config` is valid.  Whenever the branch for
`exit-when-file-created` and `exit-when-file-deleted` is taken, index 15 is
within the key and the character there is `c` or `d`, so the `assert` does
not fail and the call returns; the character is `c` exactly for
`exit-when-file-created` and `d` exactly for `exit-when-file-deleted`, and
the event registered on success is of kind FileCreated for the first key
and FileDeleted for the second. -/
theorem exitwhen_config_assert_holds (c : ConfigEnv) (key value : String) (s : State)
    (h : key = "exit-when-file-created" ∨ key = "exit-when-file-deleted") :
    15 < key.length ∧
    (key.toList[15]? = some 'c' ∨ key.toList[15]? = some 'd') ∧
    (key.toList[15]? = some 'c' ↔ key = "exit-when-file-created") ∧
    (key.toList[15]? = some 'd' ↔ key = "exit-when-file-deleted") ∧
    ∃ r, exitwhen_config c key value s = some r ∧
      (r = (-1, s) ∨
        ∃ path, c.absolute_path = some path ∧
          r = (0, { s with events := s.events ++
            [⟨if key = "exit-when-file-created" then EventType.EVENT_FILE_CREATED
              else EventType.EVENT_FILE_DELETED, EventData.filename path⟩] })) := by
  rcases h with h | h
  · subst h
    refine ⟨by decide, Or.inl key15_created, by decide, by decide, ?_⟩
    rw [config_file_created]
    cases hp : c.absolute_path with
    | none => exact ⟨_, rfl, Or.inl rfl⟩
    | some path =>
      simp only [append_event_eq]
      cases ha : c.append_ok
      · exact ⟨_, rfl, Or.inl (by simp)⟩
      · exact ⟨_, rfl, Or.inr ⟨path, rfl, by simp⟩⟩
  · subst h
    refine ⟨by decide, Or.inr key15_deleted, by decide, by decide, ?_⟩
    rw [config_file_deleted]
    cases hp : c.absolute_path with
    | none => exact ⟨_, rfl, Or.inl rfl⟩
    | some path =>
      simp only [append_event_eq]
      cases ha : c.append_ok
      · exact ⟨_, rfl, Or.inl (by simp)⟩
      · exact ⟨_, rfl, Or.inr ⟨path, rfl, by simp⟩⟩

/-- Witness for `exitwhen_config_assert_holds`: the key
`exit-when-file-deleted` with a path that resolves and an append that
succeeds. -/
theorem exitwhen_config_assert_holds_witness :
    exitwhen_config ⟨some "/tmp/stop", none, none, true, 0, true, true, none, 0⟩
        "exit-when-file-deleted" "stop" (init_state [] 60) =
      some (0, { init_state [] 60 with events :=
        [⟨EventType.EVENT_FILE_DELETED, EventData.filename "/tmp/stop"⟩] }) ∧
    15 < "exit-when-file-deleted".length := by
  have h := exitwhen_config_assert_holds
    ⟨some "/tmp/stop", none, none, true, 0, true, true, none, 0⟩
    "exit-when-file-deleted" "stop" (init_state [] 60) (Or.inr rfl)
  exact ⟨rfl, h.1⟩

end Exitwhen

namespace Rounding

/-! ## Rounding (claims C18, C19) -/

theorem and_mask (w k x : Nat) (hk : k ≤ w) (hx : x < 2 ^ w) :
    x &&& (2 ^ w - 2 ^ k) = x / 2 ^ k * 2 ^ k := by
  have hm : 2 ^ w - 2 ^ k = (2 ^ (w - k) - 1) <<< k := by
    rw [Nat.shiftLeft_eq, Nat.sub_mul, one_mul, ← pow_add, Nat.sub_add_cancel hk]
  rw [hm, ← Nat.shiftRight_eq_div_pow, ← Nat.shiftLeft_eq]
  apply Nat.eq_of_testBit_eq
  intro j
  simp only [Nat.testBit_and, Nat.testBit_shiftLeft, Nat.testBit_two_pow_sub_one,
    Nat.testBit_shiftRight]
  by_cases hj : k ≤ j
  · have e : k + (j - k) = j := by omega
    rw [e]
    by_cases hjw : j < w
    · have : j - k < w - k := by omega
      simp [hj, this]
    · have hlt : x < 2 ^ j :=
        lt_of_lt_of_le hx (Nat.pow_le_pow_right (by decide) (by omega))
      simp [Nat.testBit_lt_two_pow hlt]
  · simp [hj]

theorem is_power_of_2_two_pow (k : Nat) : is_power_of_2 (2 ^ k) = true := by
  have h : 2 ^ k ≠ 0 := by positivity
  simp [is_power_of_2, h]

theorem neg_cast_two_pow (w k : Nat) (hk : k < w) : neg_cast w (2 ^ k) = 2 ^ w - 2 ^ k := by
  have h1 : 2 ^ k < 2 ^ w := Nat.pow_lt_pow_right (by decide) hk
  have h2 : 0 < 2 ^ k := by positivity
  unfold neg_cast
  rw [Nat.mod_eq_of_lt h1, Nat.mod_eq_of_lt (by omega)]

theorem add_sub_one_eq (w i n : Nat) (hn : 0 < n) (h : i + n - 1 < 2 ^ w) :
    add_sub_one w i n = i + n - 1 := by
  unfold add_sub_one
  by_cases hlt : i + n < 2 ^ w
  · rw [Nat.mod_eq_of_lt hlt]
    have : i + n + (2 ^ w - 1) = (i + n - 1) + 2 ^ w := by omega
    rw [this, Nat.add_mod_right, Nat.mod_eq_of_lt h]
  · have : i + n = 2 ^ w := by omega
    rw [this, Nat.mod_self, Nat.zero_add, Nat.mod_eq_of_lt (by omega)]

theorem round_down_facts (n i : Nat) (hn : 0 < n) :
    i / n * n ≤ i ∧ n ∣ i / n * n ∧ (∀ m, n ∣ m → m ≤ i → m ≤ i / n * n) ∧
    i - i / n * n < n ∧ (i / n * n) / n * n = i / n * n := by
  have h1 := Nat.div_mul_le_self i n
  refine ⟨h1, Dvd.intro_left _ rfl, ?_, ?_, ?_⟩
  · rintro m ⟨q, rfl⟩ hm
    have : q ≤ i / n := by
      rw [Nat.le_div_iff_mul_le hn, Nat.mul_comm]
      exact hm
    calc n * q = q * n := Nat.mul_comm _ _
      _ ≤ i / n * n := Nat.mul_le_mul_right _ this
  · have h2 := Nat.div_add_mod i n
    have h3 := Nat.mod_lt i hn
    have h4 : i / n * n = n * (i / n) := Nat.mul_comm _ _
    omega
  · rw [Nat.mul_div_cancel _ hn]

theorem round_up_facts (n i : Nat) (hn : 0 < n) :
    i ≤ (i + n - 1) / n * n ∧ n ∣ (i + n - 1) / n * n ∧
    (∀ m, n ∣ m → i ≤ m → (i + n - 1) / n * n ≤ m) ∧
    (i + n - 1) / n * n - i < n ∧ (i + n - 1) / n * n ≤ i + n - 1 := by
  have h1 := Nat.div_mul_le_self (i + n - 1) n
  have h2 := Nat.div_add_mod (i + n - 1) n
  have h3 := Nat.mod_lt (i + n - 1) hn
  have h4 : (i + n - 1) / n * n = n * ((i + n - 1) / n) := Nat.mul_comm _ _
  refine ⟨by omega, Dvd.intro_left _ rfl, ?_, by omega, h1⟩
  rintro m ⟨q, rfl⟩ hm
  have : (i + n - 1) / n ≤ q := by
    have : (i + n - 1) / n < q + 1 := by
      rw [Nat.div_lt_iff_lt_mul hn]
      have : (q + 1) * n = n * q + n := by ring
      omega
    omega
  calc (i + n - 1) / n * n ≤ q * n := Nat.mul_le_mul_right _ this
    _ = n * q := Nat.mul_comm _ _

theorem ROUND_DOWN_eq (w k i : Nat) (hk : k < w) (hi : i < 2 ^ w) :
    ROUND_DOWN w i (2 ^ k) = some (i / 2 ^ k * 2 ^ k) := by
  simp only [ROUND_DOWN, is_power_of_2_two_pow, if_true]
  rw [neg_cast_two_pow w k hk, and_mask w k i (Nat.le_of_lt hk) hi]

theorem ROUND_UP_eq (w k i : Nat) (hk : k < w) (hno : i + 2 ^ k - 1 < 2 ^ w) :
    ROUND_UP w i (2 ^ k) = some ((i + 2 ^ k - 1) / 2 ^ k * 2 ^ k) := by
  have hn : 0 < 2 ^ k := by positivity
  simp only [ROUND_UP, is_power_of_2_two_pow, if_true]
  rw [neg_cast_two_pow w k hk, add_sub_one_eq w i _ hn hno,
    and_mask w k _ (Nat.le_of_lt hk) hno]

theorem round_up_no_overflow (w k u : Nat) (hk : k < w) (hd : 2 ^ k ∣ u) (hu : u < 2 ^ w) :
    u + 2 ^ k - 1 < 2 ^ w := by
  obtain ⟨a, rfl⟩ := hd
  have hn : 0 < 2 ^ k := by positivity
  have hw : 2 ^ w = 2 ^ k * 2 ^ (w - k) := by
    rw [← pow_add]
    congr 1
    omega
  rw [hw] at hu ⊢
  have ha : a < 2 ^ (w - k) := Nat.lt_of_mul_lt_mul_left hu
  have : 2 ^ k * (a + 1) ≤ 2 ^ k * 2 ^ (w - k) := Nat.mul_le_mul_left _ ha
  have h2 : 2 ^ k * (a + 1) = 2 ^ k * a + 2 ^ k := by ring
  omega

theorem round_up_fixed (n a : Nat) (hn : 0 < n) : (n * a + n - 1) / n * n = n * a := by
  have h : n * a + n - 1 = n - 1 + n * a := by omega
  rw [h, Nat.add_mul_div_left _ _ hn, Nat.div_eq_of_lt (by omega), Nat.zero_add,
    Nat.mul_comm]

/-- C18: for `i` of an unsigned type of `w` bits and `n` a power of two of
that type, `ROUND_DOWN (i, n)` is the greatest multiple of `n` that is at
most `i`, and, when `i + n - 1` does not overflow, `ROUND_UP (i, n)` is the
least multiple of `n` that is at least `i`.  Both results are multiples of
`n`, the first at most `i` and the second at least `i`, each less than `n`
away from `i`, and rounding a result again gives the same result. -/
theorem round_up_down_spec (w k i : Nat) (hk : k < w) (hi : i < 2 ^ w) :
    (∃ d, ROUND_DOWN w i (2 ^ k) = some d ∧ d ≤ i ∧ 2 ^ k ∣ d ∧
      (∀ m, 2 ^ k ∣ m → m ≤ i → m ≤ d) ∧ i - d < 2 ^ k ∧
      ROUND_DOWN w d (2 ^ k) = some d) ∧
    (i + 2 ^ k - 1 < 2 ^ w →
      ∃ u, ROUND_UP w i (2 ^ k) = some u ∧ i ≤ u ∧ 2 ^ k ∣ u ∧
        (∀ m, 2 ^ k ∣ m → i ≤ m → u ≤ m) ∧ u - i < 2 ^ k ∧
        ROUND_UP w u (2 ^ k) = some u) := by
  have hn : 0 < 2 ^ k := by positivity
  constructor
  · obtain ⟨d1, d2, d3, d4, d5⟩ := round_down_facts (2 ^ k) i hn
    refine ⟨_, ROUND_DOWN_eq w k i hk hi, d1, d2, d3, d4, ?_⟩
    rw [ROUND_DOWN_eq w k _ hk (lt_of_le_of_lt d1 hi), d5]
  · intro hno
    obtain ⟨u1, u2, u3, u4, u5⟩ := round_up_facts (2 ^ k) i hn
    refine ⟨_, ROUND_UP_eq w k i hk hno, u1, u2, u3, u4, ?_⟩
    have hu := round_up_no_overflow w k _ hk u2 (lt_of_le_of_lt u5 hno)
    rw [ROUND_UP_eq w k _ hk hu]
    obtain ⟨a, ha⟩ := u2
    rw [ha, round_up_fixed _ a hn]

theorem div_round_up_facts (n d : Nat) (hd : 0 < d) :
    n ≤ (n + d - 1) / d * d ∧ (∀ q, n ≤ q * d → (n + d - 1) / d ≤ q) ∧
    (d ∣ n → (n + d - 1) / d = n / d) ∧ (¬ d ∣ n → (n + d - 1) / d = n / d + 1) := by
  obtain ⟨u1, -, u3, -, -⟩ := round_up_facts d n hd
  refine ⟨u1, ?_, ?_, ?_⟩
  · intro q hq
    have := u3 (d * q) (Dvd.intro _ rfl) (by rw [Nat.mul_comm]; exact hq)
    rw [Nat.mul_comm d q] at this
    exact Nat.le_of_mul_le_mul_right this hd
  · rintro ⟨a, rfl⟩
    have h : d * a + d - 1 = d - 1 + d * a := by omega
    rw [h, Nat.add_mul_div_left _ _ hd, Nat.div_eq_of_lt (by omega), Nat.zero_add,
      Nat.mul_div_cancel_left _ hd]
  · intro hnd
    have hm : n % d ≠ 0 := fun h => hnd (Nat.dvd_of_mod_eq_zero h)
    have h2 := Nat.div_add_mod n d
    have h3 := Nat.mod_lt n hd
    have h : n + d - 1 = (n % d - 1) + d * (n / d + 1) := by
      have : d * (n / d + 1) = d * (n / d) + d := by ring
      omega
    rw [h, Nat.add_mul_div_left _ _ hd, Nat.div_eq_of_lt (by omega), Nat.zero_add]

/-- C19: for `n` and `d` of an unsigned type of `w` bits with `d > 0` and
`n + d - 1` not overflowing, `DIV_ROUND_UP (n, d)` is the least `q` with
`q * d >= n`, that is `n / d` rounded up; it equals `n / d` exactly when `d`
divides `n` and `n / d + 1` when not; and when `d` is a power of two,
`DIV_ROUND_UP (n, d) * d` is `ROUND_UP (n, d)`. -/
theorem div_round_up_spec (w n d : Nat) (hd : 0 < d) (hdw : d < 2 ^ w)
    (hno : n + d - 1 < 2 ^ w) :
    ∃ q, DIV_ROUND_UP w n d = some q ∧ n ≤ q * d ∧ (∀ q1, n ≤ q1 * d → q ≤ q1) ∧
      (q = n / d ↔ d ∣ n) ∧ (¬ d ∣ n → q = n / d + 1) ∧
      (∀ k, d = 2 ^ k → ROUND_UP w n d = some (q * d)) := by
  obtain ⟨f1, f2, f3, f4⟩ := div_round_up_facts n d hd
  refine ⟨(n + d - 1) / d, ?_, f1, f2, ⟨?_, f3⟩, f4, ?_⟩
  · simp only [DIV_ROUND_UP, Nat.pos_iff_ne_zero.mp hd, if_false]
    rw [add_sub_one_eq w n d hd hno]
  · intro h
    by_contra hnd
    have := f4 hnd
    omega
  · intro k hk
    subst hk
    have hkw : k < w := (Nat.pow_lt_pow_iff_right (by decide)).mp hdw
    exact ROUND_UP_eq w k n hkw hno

/-- Witness for `round_up_down_spec`: 1000 rounded to multiples of 512 in 32
bits. -/
theorem round_up_down_spec_witness :
    ROUND_DOWN 32 1000 (2 ^ 9) = some 512 ∧ ROUND_UP 32 1000 (2 ^ 9) = some 1024 ∧
    ∃ d, ROUND_DOWN 32 1000 (2 ^ 9) = some d ∧ d ≤ 1000 :=
  ⟨by decide, by decide,
    (round_up_down_spec 32 9 1000 (by decide) (by decide)).1.imp
      (fun _ h => ⟨h.1, h.2.1⟩)⟩

/-- Witness for `div_round_up_spec`: 1000 divided by 512 in 32 bits. -/
theorem div_round_up_spec_witness :
    DIV_ROUND_UP 32 1000 512 = some 2 ∧
    ∃ q, DIV_ROUND_UP 32 1000 512 = some q ∧ 1000 ≤ q * 512 :=
  ⟨by decide,
    (div_round_up_spec 32 1000 512 (by decide) (by decide) (by decide)).imp
      (fun _ h => ⟨h.1, h.2.1⟩)⟩

end Rounding
